import Mathlib

/-!
# Samsung SCX35 power HAL (`power/power_scx35.c`)

A shallow embedding of the power HAL: the module record and the file-scope
variables become an explicit `State`, the kernel interfaces (sysfs nodes,
directories, file descriptors, the allocator and the bytes found in
uninitialised automatic arrays) become an explicit `World` that every
function receives, and every function returns, next to its result, the list
of `Event`s it caused.

Conventions.
* A C `char` array is a `List Char` holding all its bytes; the C string in it
  is `cstr`, the bytes before the first zero byte.
* A `char *` that may be `NULL` is an `Option String`.
* `int` values are `Int`; the one conversion that can wrap is explicit
  (`int32`).
* Recorded events: every entry into `sysfs_write` (with both arguments),
  every `open(2)` and `write(2)` with its outcome, and every `ALOGE` line.
  `read`, `close`, `stat`, directory reads and the `ALOGV`/`ALOGD` lines are
  not recorded.
* A call that stores past the end of an array has no defined behaviour in C:
  the function then returns `none`, and a run of calls ends before it.
-/

set_option maxRecDepth 100000

namespace PowerHAL

/-! ## Bytes, C strings -/

/-- The zero byte that ends a C string. -/
def NUL : Char := Char.ofNat 0

/-- Line feed. -/
def LF : Char := Char.ofNat 10

/-- Carriage return. -/
def CR : Char := Char.ofNat 13

/-- The C string held in a byte array: the bytes before the first zero byte. -/
def cstr (buf : List Char) : List Char :=
  buf.takeWhile (fun c => c != NUL)

/-- The libc `strlen`. -/
def strlen (buf : List Char) : Nat :=
  (cstr buf).length

/-- The libc `strncmp` on byte arrays; reading past the end of a list reads a
zero byte.  The result is zero, or the difference of the first two bytes that
differ. -/
def strncmp : List Char → List Char → Nat → Int
  | _, _, 0 => 0
  | a, b, n + 1 =>
    if a.headD NUL ≠ b.headD NUL then
      ((a.headD NUL).toNat : Int) - ((b.headD NUL).toNat : Int)
    else if a.headD NUL = NUL then 0
    else strncmp a.tail b.tail n

/-- The libc `isdigit` in the C locale. -/
def isdigit (c : Char) : Bool :=
  decide (48 ≤ c.toNat ∧ c.toNat ≤ 57)

/-- An automatic array of `n` bytes whose initial bytes are `junk`
(missing bytes are taken as zero). -/
def fit (n : Nat) (junk : List Char) : List Char :=
  (junk ++ List.replicate n NUL).take n

/-- Storing `bytes` at the start of the array `buf`, when they fit
(`bytes.length ≤ buf.length`).  A caller that may store more bytes than the
array has checks `sysfs_read_stored` first and has no result then. -/
def store (buf bytes : List Char) : List Char :=
  (bytes ++ buf.drop bytes.length).take buf.length

/-- Conversion of an integer to a 32-bit `int`. -/
def int32 (x : Int) : Int :=
  (x + 2147483648) % 4294967296 - 2147483648

/-! ## The world outside the HAL -/

/-- A sysfs node, as far as the HAL can observe it. -/
structure Node where
  /-- The call `open(path, O_RDONLY)` succeeds. -/
  rd_ok : Bool
  /-- The call `open(path, O_WRONLY)` succeeds. -/
  wr_ok : Bool
  /-- The bytes a `read` delivers; `none` when `read` fails. -/
  data : Option (List Char)
  /-- The call `write` on the node succeeds. -/
  write_ok : Bool

/-- What the kernel and the C runtime answer during one call into the HAL. -/
structure World where
  /-- The nodes that exist (`stat` succeeds exactly on these). -/
  node : String → Option Node
  /-- The entries `readdir` returns for a directory; `none` when `opendir` fails. -/
  dir : String → Option (List String)
  /-- The descriptor a successful `open` returns. -/
  fd : Nat
  /-- The outcome of `write` on the descriptor kept for the boost-pulse node. -/
  fd_write_ok : Bool
  /-- The outcomes of the coming `malloc` calls (`false`: returns `NULL`);
  once the list is used up every call succeeds. -/
  heap : List Bool
  /-- The bytes found in the uninitialised `panel_brightness` array. -/
  stack_panel_brightness : List Char
  /-- The bytes found in the uninitialised `file_content` array of
  `find_input_nodes`, per directory argument. -/
  stack_file_content : String → List Char

/-- The node a path names.  A `NULL` path (`EFAULT`) and the empty path
(`ENOENT`) name nothing. -/
def World.lookup (w : World) (path : Option String) : Option Node :=
  match path with
  | none => none
  | some p => if p = "" then none else w.node p

/-- The system call `open(path, flags)`: the new descriptor, or `-1`. -/
def World.open (w : World) (path : Option String) (wronly : Bool) : Int :=
  match w.lookup path with
  | none => -1
  | some n => if (if wronly then n.wr_ok else n.rd_ok) then (w.fd : Int) else -1

/-- The system call `stat(path, &sb)`: `0`, or `-1`. -/
def World.stat (w : World) (path : Option String) : Int :=
  match w.lookup path with
  | none => -1
  | some _ => 0

/-- The libc `malloc`: whether it succeeds, and the outcomes left. -/
def malloc (heap : List Bool) : Bool × List Bool :=
  match heap with
  | [] => (true, [])
  | b :: rest => (b, rest)

/-! ## Events -/

/-- What a call into the HAL does to the outside. -/
inductive Event where
  /-- Entry into `sysfs_write(path, s)`; `s` is the C string passed. -/
  | sysfs_write (path : Option String) (s : List Char)
  /-- The call `open(path, flags)` and its result. -/
  | open (path : Option String) (wronly : Bool) (result : Int)
  /-- The call `write(fd, bytes, len)` and whether it succeeded; `path` is
  the node the descriptor `fd` was opened on. -/
  | write (fd : Int) (path : Option String) (bytes : List Char) (ok : Bool)
  /-- An `ALOGE` line: its format string and its path argument. -/
  | aloge (fmt : String) (path : Option String)
  deriving DecidableEq

/-! ## State -/

/-- The C `struct samsung_power_module` (without `base` and `lock`). -/
structure samsung_power_module where
  boostpulse_fd : Int
  boostpulse_warned : Int
  cpu_hispeed_freq : List Char
  cpu_min_freq : List Char
  cpu_max_freq : List Char
  touchscreen_power_path : Option String
  touchkey_power_path : Option String
  touchkey_blocked : Bool
  deriving DecidableEq

/-- The module record together with the file-scope variables. -/
structure State where
  /-- The record `HAL_MODULE_INFO_SYM`. -/
  pwr : samsung_power_module
  /-- The array `static char governor[20]`. -/
  governor : List Char
  CPU_HISPEED_FREQ_PATH : String
  IO_IS_BUSY_PATH : String
  BOOSTPULSE_PATH : String
  current_power_profile : Int
  deriving DecidableEq

def SCALING_GOVERNOR_PATH : String := "/sys/devices/system/cpu/cpu0/cpufreq/scaling_governor"
def CPU_MAX_FREQ_PATH : String := "/sys/devices/system/cpu/cpu0/cpufreq/cpuinfo_max_freq"
def SCALING_MAX_FREQ_PATH : String := "/sys/devices/system/cpu/cpu0/cpufreq/scaling_max_freq"
def SCALING_MIN_FREQ_PATH : String := "/sys/devices/system/cpu/cpu0/cpufreq/scaling_min_freq"
def PANEL_BRIGHTNESS : String := "/sys/class/backlight/panel/brightness"

def PROFILE_POWER_SAVE : Int := 0
def PROFILE_BALANCED : Int := 1
def PROFILE_HIGH_PERFORMANCE : Int := 2

/-- The initialiser of `HAL_MODULE_INFO_SYM`; members it does not name are zero. -/
def initial_module : samsung_power_module :=
  { boostpulse_fd := -1
    boostpulse_warned := 0
    cpu_hispeed_freq := List.replicate 10 NUL
    cpu_min_freq := List.replicate 10 NUL
    cpu_max_freq := List.replicate 10 NUL
    touchscreen_power_path := none
    touchkey_power_path := none
    touchkey_blocked := false }

/-- The state when the library is loaded. -/
def initial_state : State :=
  { pwr := initial_module
    governor := List.replicate 20 NUL
    CPU_HISPEED_FREQ_PATH := ""
    IO_IS_BUSY_PATH := ""
    BOOSTPULSE_PATH := ""
    current_power_profile := PROFILE_HIGH_PERFORMANCE }

/-! ## Helper functions -/

/-- The C function `sysfs_read(path, s, num_bytes)`: the return value, the
array `s` afterwards, and the events. -/
def sysfs_read (w : World) (path : Option String) (s : List Char) (num_bytes : Nat) :
    Int × List Char × List Event :=
  if w.open path false < 0 then
    (-1, s, [Event.open path false (w.open path false),
             Event.aloge "Error opening %s: %s\n" path])
  else
    match (w.lookup path).bind Node.data with
    | none =>
      (-1, s, [Event.open path false (w.open path false),
               Event.aloge "Error reading from %s: %s\n" path])
    | some d =>
      (0, store s (d.take (num_bytes - 1) ++ [NUL]),
       [Event.open path false (w.open path false)])

/-- The number of bytes `sysfs_read(path, s, num_bytes)` stores into `s`: the
`len` bytes `read` delivers and the terminator at `s[len]`; none when `open`
or `read` fails. -/
def sysfs_read_stored (w : World) (path : Option String) (num_bytes : Nat) : Nat :=
  if w.open path false < 0 then 0
  else
    match (w.lookup path).bind Node.data with
    | none => 0
    | some d => (d.take (num_bytes - 1)).length + 1

/-- The C function `sysfs_write(path, s)`.  After a successful `open` the path
names a node, so the case `none` of the `match` is never taken. -/
def sysfs_write (w : World) (path : Option String) (s : List Char) : List Event :=
  if w.open path true < 0 then
    [Event.sysfs_write path (cstr s), Event.open path true (w.open path true),
     Event.aloge "Error opening %s: %s\n" path]
  else
    match w.lookup path with
    | none => [Event.sysfs_write path (cstr s), Event.open path true (w.open path true)]
    | some n =>
      if n.write_ok then
        [Event.sysfs_write path (cstr s), Event.open path true (w.open path true),
         Event.write (w.open path true) path (cstr s) true]
      else
        [Event.sysfs_write path (cstr s), Event.open path true (w.open path true),
         Event.write (w.open path true) path (cstr s) false,
         Event.aloge "Error writing to %s: %s\n" path]

/-- The stripping loop of `get_scaling_governor`; the argument is `len + 1`. -/
def strip_loop (governor : List Char) : Nat → List Char
  | 0 => governor
  | len + 1 =>
    if governor.getD len NUL = LF ∨ governor.getD len NUL = CR then
      strip_loop (governor.set len NUL) len
    else governor

/-- The C function `get_scaling_governor()`. -/
def get_scaling_governor (w : World) (st : State) : Int × State × List Event :=
  let r := sysfs_read w (some SCALING_GOVERNOR_PATH) st.governor 20
  if r.1 = -1 then
    (-1, { st with governor := r.2.1 }, r.2.2)
  else
    (0, { st with governor := strip_loop r.2.1 (strlen r.2.1) }, r.2.2)

/-- The C function `get_sysfs_path()`. -/
def get_sysfs_path (w : World) (st : State) : Int × State × List Event :=
  let g := get_scaling_governor w st
  if g.1 < 0 then
    (-1, g.2.1, g.2.2)
  else if strncmp g.2.1.governor "interactive".toList 11 = 0 then
    (0, { g.2.1 with
            CPU_HISPEED_FREQ_PATH := "/sys/devices/system/cpu/cpufreq/interactive/hispeed_freq"
            IO_IS_BUSY_PATH := "/sys/devices/system/cpu/cpufreq/interactive/io_is_busy"
            BOOSTPULSE_PATH := "/sys/devices/system/cpu/cpufreq/interactive/boostpulse" },
     g.2.2)
  else if strncmp g.2.1.governor "intelliactive".toList 13 = 0 then
    (0, { g.2.1 with
            CPU_HISPEED_FREQ_PATH := "/sys/devices/system/cpu/cpufreq/intelliactive/hispeed_freq"
            IO_IS_BUSY_PATH := "/sys/devices/system/cpu/cpufreq/intelliactive/io_is_busy"
            BOOSTPULSE_PATH := "/sys/devices/system/cpu/cpufreq/intelliactive/boostpulse" },
     g.2.2)
  else
    (0, g.2.1, g.2.2)

/-- The summing loop of `read_panel_brightness`, from index `i` on, for `k`
more rounds; `ret` is an `unsigned int`. -/
def brightness_loop (panel_brightness : List Char) : Nat → Nat → Nat → Nat
  | 0, _, ret => ret
  | k + 1, i, ret =>
    if isdigit (panel_brightness.getD i NUL) then
      brightness_loop panel_brightness k (i + 1)
        ((ret + ((panel_brightness.getD i NUL).toNat - 48)) % 4294967296)
    else
      brightness_loop panel_brightness k (i + 1) ret

/-- The C function `read_panel_brightness()`.  The array has 4 bytes and the
read is given `sizeof(PANEL_BRIGHTNESS)`, 38, as its size: when the node
delivers 4 bytes or more, `sysfs_read` stores past the end of the array and
the call has no defined behaviour (`none`). -/
def read_panel_brightness (w : World) : Option (Nat × List Event) :=
  let r := sysfs_read w (some PANEL_BRIGHTNESS) (fit 4 w.stack_panel_brightness) 38
  if sysfs_read_stored w (some PANEL_BRIGHTNESS) 38 > 4 then
    none
  else if r.1 < 0 then
    some (4294967295,
      r.2.2 ++
        [Event.aloge "%s: Failed to read panel brightness from %s!\n" (some PANEL_BRIGHTNESS)])
  else
    some (brightness_loop r.2.1 4 0 0, r.2.2)

/-! ## Power functions -/

/-- The C function `boostpulse_open(samsung_pwr)`; its return value is the
field `boostpulse_fd` of the state returned. -/
def boostpulse_open (w : World) (st : State) : State × List Event :=
  if st.pwr.boostpulse_fd < 0 then
    if w.open (some st.BOOSTPULSE_PATH) true < 0 then
      if st.pwr.boostpulse_warned = 0 then
        ({ st with pwr := { st.pwr with
                              boostpulse_fd := w.open (some st.BOOSTPULSE_PATH) true
                              boostpulse_warned := 1 } },
         [Event.open (some st.BOOSTPULSE_PATH) true (w.open (some st.BOOSTPULSE_PATH) true),
          Event.aloge "Error opening %s: %s\n" (some st.BOOSTPULSE_PATH)])
      else
        ({ st with pwr := { st.pwr with
                              boostpulse_fd := w.open (some st.BOOSTPULSE_PATH) true } },
         [Event.open (some st.BOOSTPULSE_PATH) true (w.open (some st.BOOSTPULSE_PATH) true)])
    else
      ({ st with pwr := { st.pwr with
                            boostpulse_fd := w.open (some st.BOOSTPULSE_PATH) true } },
       [Event.open (some st.BOOSTPULSE_PATH) true (w.open (some st.BOOSTPULSE_PATH) true)])
  else
    (st, [])

/-- The C function `set_power_profile(samsung_pwr, profile)`.  The `switch`
has no `default` label. -/
def set_power_profile (w : World) (st : State) (profile : Int) : State × List Event :=
  if st.current_power_profile = profile then
    (st, [])
  else if profile = PROFILE_POWER_SAVE then
    ({ st with current_power_profile := profile },
     sysfs_write w (some SCALING_MAX_FREQ_PATH) st.pwr.cpu_min_freq)
  else if profile = PROFILE_BALANCED then
    ({ st with current_power_profile := profile },
     sysfs_write w (some SCALING_MAX_FREQ_PATH) st.pwr.cpu_hispeed_freq)
  else if profile = PROFILE_HIGH_PERFORMANCE then
    ({ st with current_power_profile := profile },
     sysfs_write w (some SCALING_MAX_FREQ_PATH) st.pwr.cpu_max_freq)
  else
    ({ st with current_power_profile := profile }, [])

/-- The variables a run of `find_input_nodes` carries along. -/
structure Scan where
  pwr : samsung_power_module
  /-- The array `char file_content[20]`. -/
  file_content : List Char
  heap : List Bool
  trace : List Event
  /-- A `return` statement has been executed. -/
  returned : Bool

/-- The body of `if (strncmp(file_content, "sec_touchkey", 12) == 0)`. -/
def found_touchkey (node_path : String) (sc : Scan) : Scan :=
  if (malloc sc.heap).1 then
    { sc with pwr := { sc.pwr with touchkey_power_path := some node_path }
              heap := (malloc sc.heap).2 }
  else
    { sc with pwr := { sc.pwr with touchkey_power_path := none }
              heap := (malloc sc.heap).2
              trace := sc.trace ++ [Event.aloge "Out of memory: %s\n" none]
              returned := true }

/-- The body of `if (strncmp(file_content, "sec_touchscreen", 15) == 0)`. -/
def found_touchscreen (node_path : String) (sc : Scan) : Scan :=
  if (malloc sc.heap).1 then
    { sc with pwr := { sc.pwr with touchscreen_power_path := some node_path }
              heap := (malloc sc.heap).2 }
  else
    { sc with pwr := { sc.pwr with touchscreen_power_path := none }
              heap := (malloc sc.heap).2
              trace := sc.trace ++ [Event.aloge "Out of memory: %s\n" none]
              returned := true }

/-- One round of the `readdir` loop of `find_input_nodes`, for the entry
`d_name`. -/
def find_input_nodes_entry (w : World) (dir : String) (d_name : String) (sc : Scan) : Scan :=
  if strncmp "name".toList d_name.toList 5 = 0 then
    if (malloc sc.heap).1 = false ∨ (malloc (malloc sc.heap).2).1 = false then
      { sc with heap := (malloc (malloc sc.heap).2).2
                trace := sc.trace ++ [Event.aloge "Out of memory: %s\n" none]
                returned := true }
    else
      let r := sysfs_read w (some (dir ++ "/" ++ "name")) sc.file_content 20
      let node_path := dir ++ "/" ++ "enabled"
      let sc1 : Scan := { sc with file_content := r.2.1
                                  heap := (malloc (malloc sc.heap).2).2
                                  trace := sc.trace ++ r.2.2 }
      let sc2 : Scan :=
        if strncmp sc1.file_content "sec_touchkey".toList 12 = 0 then
          found_touchkey node_path sc1
        else sc1
      if sc2.returned then sc2
      else if strncmp sc2.file_content "sec_touchscreen".toList 15 = 0 then
        found_touchscreen node_path sc2
      else sc2
  else sc

/-- The `readdir` loop of `find_input_nodes` over the entries still to come. -/
def find_input_nodes_loop (w : World) (dir : String) : List String → Scan → Scan
  | [], sc => sc
  | d_name :: rest, sc =>
    if (find_input_nodes_entry w dir d_name sc).returned then
      find_input_nodes_entry w dir d_name sc
    else
      find_input_nodes_loop w dir rest (find_input_nodes_entry w dir d_name sc)

/-- The C function `find_input_nodes(samsung_pwr, dir)`: the module record
afterwards, the allocator outcomes left, and the events. -/
def find_input_nodes (w : World) (pwr : samsung_power_module) (heap : List Bool)
    (dir : String) : samsung_power_module × List Bool × List Event :=
  match w.dir dir with
  | none => (pwr, heap, [])
  | some entries =>
    let sc := find_input_nodes_loop w dir entries
      { pwr := pwr, file_content := fit 20 (w.stack_file_content dir), heap := heap,
        trace := [], returned := false }
    (sc.pwr, sc.heap, sc.trace)

/-! ## Init functions -/

/-- The C function `init_cpufreqs(samsung_pwr)`. -/
def init_cpufreqs (w : World) (st : State) : State × List Event :=
  let r1 := sysfs_read w (some SCALING_MIN_FREQ_PATH) st.pwr.cpu_min_freq 10
  let r2 := sysfs_read w (some st.CPU_HISPEED_FREQ_PATH) st.pwr.cpu_hispeed_freq 10
  let r3 := sysfs_read w (some CPU_MAX_FREQ_PATH) st.pwr.cpu_max_freq 10
  ({ st with pwr := { st.pwr with cpu_min_freq := r1.2.1
                                  cpu_hispeed_freq := r2.2.1
                                  cpu_max_freq := r3.2.1 } },
   r1.2.2 ++ r2.2.2 ++ r3.2.2)

/-- The directory name `snprintf(dir, sizeof(dir), "/sys/class/input/input%d", i)`. -/
def input_dir (i : Nat) : String :=
  "/sys/class/input/input" ++ toString i

/-- The `for` loop of `init_touch_input_power_path` over the indices still to
come. -/
def init_touch_loop (w : World) :
    List Nat → samsung_power_module → List Bool → samsung_power_module × List Bool × List Event
  | [], pwr, heap => (pwr, heap, [])
  | i :: rest, pwr, heap =>
    let r := find_input_nodes w pwr heap (input_dir i)
    let r2 := init_touch_loop w rest r.1 r.2.1
    (r2.1, r2.2.1, r.2.2 ++ r2.2.2)

/-- The C function `init_touch_input_power_path(samsung_pwr)`: `i` runs from
0 to 19. -/
def init_touch_input_power_path (w : World) (pwr : samsung_power_module) :
    samsung_power_module × List Event :=
  let r := init_touch_loop w (List.range 20) pwr w.heap
  (r.1, r.2.2)

/-- The C function `samsung_power_init(module)`. -/
def samsung_power_init (w : World) (st : State) : State × List Event :=
  let g := get_scaling_governor w st
  let p := get_sysfs_path w g.2.1
  let c := init_cpufreqs w p.2.1
  let t := init_touch_input_power_path w c.1.pwr
  ({ c.1 with pwr := t.1 }, g.2.2 ++ p.2.2 ++ c.2 ++ t.2)

/-! ## The entry points -/

/-- The statements of `samsung_power_set_interactive(module, on)` after the
call of `read_panel_brightness`, whose result is `b`. -/
def set_interactive_rest (w : World) (st : State) (on_ : Int) (b : Nat × List Event) :
    State × List Event :=
  let text : List Char := if on_ ≠ 0 then "1".toList else "0".toList
  if on_ = 0 ∧ b.1 > 0 then
    (st, b.2 ++ sysfs_write w (some st.IO_IS_BUSY_PATH) text)
  else
    let pre := b.2 ++ sysfs_write w st.pwr.touchscreen_power_path text
    if w.stat st.pwr.touchkey_power_path < 0 then
      (st, pre ++ sysfs_write w (some st.IO_IS_BUSY_PATH) text)
    else if on_ = 0 then
      let r := sysfs_read w st.pwr.touchkey_power_path (fit 2 []) 2
      if r.1 = 0 then
        if ((r.2.1.getD 0 NUL).toNat : Int) - (('0').toNat : Int) = 0 then
          ({ st with pwr := { st.pwr with touchkey_blocked := true } },
           pre ++ r.2.2 ++ sysfs_write w (some st.IO_IS_BUSY_PATH) text)
        else
          ({ st with pwr := { st.pwr with touchkey_blocked := false } },
           pre ++ r.2.2 ++ sysfs_write w st.pwr.touchkey_power_path "0".toList ++
             sysfs_write w (some st.IO_IS_BUSY_PATH) text)
      else
        (st, pre ++ r.2.2 ++ sysfs_write w (some st.IO_IS_BUSY_PATH) text)
    else if st.pwr.touchkey_blocked = false then
      (st, pre ++ sysfs_write w st.pwr.touchkey_power_path "1".toList ++
         sysfs_write w (some st.IO_IS_BUSY_PATH) text)
    else
      (st, pre ++ sysfs_write w (some st.IO_IS_BUSY_PATH) text)

/-- The C function `samsung_power_set_interactive(module, on)`; the parameter
`on` is written `on_`.  `read_panel_brightness` is called only when `on` is
zero; when that call has no defined behaviour, neither has this one.  The
array `touchkey_node` is not initialised, and its byte 0 is read only after
`sysfs_read` has stored into it. -/
def samsung_power_set_interactive (w : World) (st : State) (on_ : Int) :
    Option (State × List Event) :=
  if on_ = 0 then
    match read_panel_brightness w with
    | none => none
    | some b => some (set_interactive_rest w st on_ b)
  else
    some (set_interactive_rest w st on_ (0, []))

/-- The hint codes `samsung_power_hint` tells apart; the numeric values are
those of `hardware/power.h`, which the `switch` does not depend on. -/
inductive power_hint_t where
  | POWER_HINT_VSYNC
  | POWER_HINT_INTERACTION
  | POWER_HINT_SET_PROFILE
  /-- Every other hint code. -/
  | other (code : Int)
  deriving DecidableEq

/-- The C function `samsung_power_hint(module, hint, data)`; `data` is the
`intptr_t` that `data` points to. -/
def samsung_power_hint (w : World) (st : State) (hint : power_hint_t) (data : Int) :
    State × List Event :=
  match hint with
  | power_hint_t.POWER_HINT_INTERACTION =>
    if st.current_power_profile = PROFILE_POWER_SAVE then
      (st, [])
    else if (boostpulse_open w st).1.pwr.boostpulse_fd ≥ 0 then
      if w.fd_write_ok then
        ((boostpulse_open w st).1,
         (boostpulse_open w st).2 ++
           [Event.write (boostpulse_open w st).1.pwr.boostpulse_fd (some st.BOOSTPULSE_PATH)
              "1".toList true])
      else
        ((boostpulse_open w st).1,
         (boostpulse_open w st).2 ++
           [Event.write (boostpulse_open w st).1.pwr.boostpulse_fd (some st.BOOSTPULSE_PATH)
              "1".toList false,
            Event.aloge "Error writing to %s: %s\n" (some st.BOOSTPULSE_PATH)])
    else
      boostpulse_open w st
  | power_hint_t.POWER_HINT_VSYNC => (st, [])
  | power_hint_t.POWER_HINT_SET_PROFILE => set_power_profile w st (int32 data)
  | power_hint_t.other _ => (st, [])

/-- A call the host makes after `init`. -/
inductive Call where
  | set_interactive (on_ : Int)
  | power_hint (hint : power_hint_t) (data : Int)
  deriving DecidableEq

/-- One call, made in the world `c.2`; `none` when its behaviour is not
defined. -/
def step (st : State) (c : Call × World) : Option (State × List Event) :=
  match c.1 with
  | Call.set_interactive on_ => samsung_power_set_interactive c.2 st on_
  | Call.power_hint hint data => some (samsung_power_hint c.2 st hint data)

/-- A finite sequence of calls, each in its own world: the state and the
events in order.  The run ends before the first call whose behaviour is not
defined: nothing is said about that call and the calls after it. -/
def run (st : State) : List (Call × World) → State × List Event
  | [] => (st, [])
  | c :: rest =>
    match step st c with
    | none => (st, [])
    | some r => ((run r.1 rest).1, r.2 ++ (run r.1 rest).2)

/-- The state after `samsung_power_init` in the world `boot`, followed by the
calls `calls` as far as their behaviour is defined. -/
def reach (boot : World) (calls : List (Call × World)) : State :=
  (run (samsung_power_init boot initial_state).1 calls).1

/-! ## Reading a trace -/

/-- The texts of the `sysfs_write` calls made with `path`, in order. -/
def writes_to (path : Option String) : List Event → List (List Char)
  | [] => []
  | Event.sysfs_write p s :: rest =>
    if p = path then s :: writes_to path rest else writes_to path rest
  | _ :: rest => writes_to path rest

/-- The `write(2)` calls of a trace on descriptors of the node `path`, in
order, as (bytes, success). -/
def node_writes (path : Option String) : List Event → List (List Char × Bool)
  | [] => []
  | Event.write _ p bytes ok :: rest =>
    if p = path then (bytes, ok) :: node_writes path rest else node_writes path rest
  | _ :: rest => node_writes path rest

/-- All `write(2)` calls of a trace, in order, as (node, bytes, success). -/
def all_writes : List Event → List (Option String × List Char × Bool)
  | [] => []
  | Event.write _ p bytes ok :: rest => (p, bytes, ok) :: all_writes rest
  | _ :: rest => all_writes rest

/-- The brightness read stays inside the 4-byte array `panel_brightness`. -/
def brightness_fits (w : World) : Prop :=
  sysfs_read_stored w (some PANEL_BRIGHTNESS) 38 ≤ 4

/-- All `sysfs_write` calls of a trace, in order, as (path, text). -/
def sysfs_writes : List Event → List (Option String × List Char)
  | [] => []
  | Event.sysfs_write p s :: rest => (p, s) :: sysfs_writes rest
  | _ :: rest => sysfs_writes rest

/-! ## Vocabulary of the properties -/

/-- A trace without `sysfs_write` call and without `write(2)`. -/
def quiet (tr : List Event) : Prop :=
  sysfs_writes tr = [] ∧ all_writes tr = []

/-- The frequency string a profile stands for: the minimum frequency for
PowerSave, the hispeed frequency for Balanced, the maximum frequency
otherwise. -/
def profile_text (st : State) (profile : Int) : List Char :=
  if profile = PROFILE_POWER_SAVE then cstr st.pwr.cpu_min_freq
  else if profile = PROFILE_BALANCED then cstr st.pwr.cpu_hispeed_freq
  else cstr st.pwr.cpu_max_freq

/-- A profile value is one of the three enumerators. -/
def valid_profile (p : Int) : Prop :=
  p = PROFILE_POWER_SAVE ∨ p = PROFILE_BALANCED ∨ p = PROFILE_HIGH_PERFORMANCE

/-- A world without nodes and directories. -/
def empty_world : World :=
  { node := fun _ => none
    dir := fun _ => none
    fd := 3
    fd_write_ok := true
    heap := []
    stack_panel_brightness := []
    stack_file_content := fun _ => [] }

/-- The interaction hints of a sequence: one per element, with its (unused)
data value and the world it is made in. -/
def interaction_hints (l : List (Int × World)) : List (Call × World) :=
  l.map (fun x => (Call.power_hint power_hint_t.POWER_HINT_INTERACTION x.1, x.2))

/-- The number of `open` calls in a trace. -/
def opens : List Event → Nat
  | [] => 0
  | Event.open _ _ _ :: rest => 1 + opens rest
  | _ :: rest => opens rest

/-- The number of `open` calls in a trace that returned a descriptor. -/
def opens_ok : List Event → Nat
  | [] => 0
  | Event.open _ _ r :: rest => (if r ≥ 0 then 1 else 0) + opens_ok rest
  | _ :: rest => opens_ok rest

/-- The number of reported `open` failures in a trace. -/
def open_reports : List Event → Nat
  | [] => 0
  | Event.aloge fmt _ :: rest =>
    (if fmt = "Error opening %s: %s\n" then 1 else 0) + open_reports rest
  | _ :: rest => open_reports rest

/-- A line feed or a carriage return. -/
def is_eol (c : Char) : Bool :=
  decide (c = LF ∨ c = CR)

/-- The governor name the HAL works with when the node `scaling_governor`
delivers `content`: the C string in the first 19 bytes, without its trailing
line feeds and carriage returns. -/
def governor_name (content : List Char) : List Char :=
  (cstr (content.take 19)).rdropWhile is_eol

/-- The three governor paths of a state: hispeed_freq, io_is_busy, boostpulse. -/
def governor_paths (st : State) : String × String × String :=
  (st.CPU_HISPEED_FREQ_PATH, st.IO_IS_BUSY_PATH, st.BOOSTPULSE_PATH)

/-- A node that can be opened, read and written and delivers `content`. -/
def plain_node (content : String) : Node :=
  { rd_ok := true, wr_ok := true, data := some content.toList, write_ok := true }

/-- A world whose only node is `scaling_governor`, delivering `content`. -/
def governor_world (content : String) : World :=
  { empty_world with
    node := fun p => if p = SCALING_GOVERNOR_PATH then some (plain_node content) else none }

/-- A world whose only node is the panel brightness, delivering `content`,
met with the bytes `junk` in the uninitialised array `panel_brightness`. -/
def brightness_world (content : String) (junk : String) : World :=
  { empty_world with
    node := fun p => if p = PANEL_BRIGHTNESS then some (plain_node content) else none
    stack_panel_brightness := junk.toList }

/-- The value of a decimal digit character, 0 for every other character. -/
def digit_value (c : Char) : Nat :=
  if isdigit c then c.toNat - 48 else 0

/-- The path of the `enabled` node of the input directory `i`. -/
def enabled_path (i : Nat) : String :=
  input_dir i ++ "/" ++ "enabled"

/-- A touch path is `NULL` or the `enabled` path of a directory below `k`. -/
def touch_path_ok (k : Nat) (p : Option String) : Prop :=
  p = none ∨ ∃ i, i < k ∧ p = some (enabled_path i)

/-- The io-busy path is empty or one of the two governor families. -/
def io_path_ok (s : String) : Prop :=
  s = "" ∨ s = "/sys/devices/system/cpu/cpufreq/interactive/io_is_busy" ∨
    s = "/sys/devices/system/cpu/cpufreq/intelliactive/io_is_busy"

/-- The touch paths of a module record after the directories below `k` have
been scanned: both of the expected form, and not the same path. -/
def paths_inv (k : Nat) (pwr : samsung_power_module) : Prop :=
  touch_path_ok k pwr.touchscreen_power_path ∧ touch_path_ok k pwr.touchkey_power_path ∧
  ∀ p, pwr.touchkey_power_path = some p → pwr.touchscreen_power_path ≠ some p

/-- The invariant of the `readdir` loop for the directory `k`: `F` is the
array `file_content` after a read, `fc0` the array on entry. -/
def scan_inv (k : Nat) (F fc0 : List Char) (sc : Scan) : Prop :=
  (sc.file_content = fc0 ∨ sc.file_content = F) ∧
  (touch_path_ok k sc.pwr.touchkey_power_path ∨
    (sc.pwr.touchkey_power_path = some (enabled_path k) ∧
      strncmp F "sec_touchkey".toList 12 = 0)) ∧
  (touch_path_ok k sc.pwr.touchscreen_power_path ∨
    (sc.pwr.touchscreen_power_path = some (enabled_path k) ∧
      strncmp F "sec_touchscreen".toList 15 = 0)) ∧
  ∀ p, sc.pwr.touchkey_power_path = some p → sc.pwr.touchscreen_power_path ≠ some p

/-- The three paths the interactivity transition writes to are pairwise
different. -/
def paths_distinct (st : State) : Prop :=
  st.pwr.touchscreen_power_path ≠ some st.IO_IS_BUSY_PATH ∧
  st.pwr.touchkey_power_path ≠ some st.IO_IS_BUSY_PATH ∧
  ∀ p, st.pwr.touchkey_power_path = some p → st.pwr.touchscreen_power_path ≠ some p

/-- The paths the interactivity transition writes to: touchscreen, touch-key,
io-busy. -/
def write_paths (st : State) : Option String × Option String × String :=
  (st.pwr.touchscreen_power_path, st.pwr.touchkey_power_path, st.IO_IS_BUSY_PATH)

/-- The text `samsung_power_set_interactive` writes for `on`: "1" when `on` is
non-zero, "0" when it is zero. -/
def on_text (on_ : Int) : List Char :=
  if on_ ≠ 0 then "1".toList else "0".toList

/-- A world in which the input directory 1 holds a device named
"sec_touchkey" and no `enabled` node. -/
def touchkey_world : World :=
  { empty_world with
    node := fun p =>
      if p = "/sys/class/input/input1/name" then some (plain_node "sec_touchkey\n") else none
    dir := fun p => if p = "/sys/class/input/input1" then some [".", "..", "name"] else none }

/-- A device name starts with the touch-key identifier. -/
def is_touchkey (name : List Char) : Prop :=
  name.take 12 = "sec_touchkey".toList

/-- A device name starts with the touchscreen identifier. -/
def is_touchscreen (name : List Char) : Prop :=
  name.take 15 = "sec_touchscreen".toList

instance : DecidablePred is_touchkey := fun name =>
  inferInstanceAs (Decidable (name.take 12 = "sec_touchkey".toList))

instance : DecidablePred is_touchscreen := fun name =>
  inferInstanceAs (Decidable (name.take 15 = "sec_touchscreen".toList))

/-- The world gives every input directory `i` below 20 the device name
`names i`: the directory can be read and has an entry `name`, and the node
`name` in it can be read and delivers `names i`. -/
def names_assigned (w : World) (names : Nat → List Char) : Prop :=
  ∀ i, i < 20 →
    (∃ entries, w.dir (input_dir i) = some entries ∧ "name" ∈ entries) ∧
    ∃ n, w.node (input_dir i ++ "/" ++ "name") = some n ∧ n.rd_ok = true ∧
      n.data = some (names i)

/-- A world in which the input directories 0 and 1 both hold a device named
"sec_touchkey" and every other directory a device named "gpio-keys". -/
def two_touchkeys_world : World :=
  { empty_world with
    node := fun p =>
      if p = "/sys/class/input/input0/name" ∨ p = "/sys/class/input/input1/name" then
        some (plain_node "sec_touchkey\n")
      else some (plain_node "gpio-keys\n")
    dir := fun _ => some [".", "..", "name", "enabled"] }

/-- The device names of `two_touchkeys_world`. -/
def two_touchkeys_names (i : Nat) : List Char :=
  if i = 0 ∨ i = 1 then "sec_touchkey\n".toList else "gpio-keys\n".toList

/-- The variables of the `readdir` loop for the directory `k`, when its `name`
node delivers `name` and no allocation fails: `pwr0` is the module record on
entry, `seen` says that an entry `name` has been handled. -/
def scan_named (k : Nat) (name : List Char) (pwr0 : samsung_power_module) (seen : Prop)
    (sc : Scan) : Prop :=
  sc.returned = false ∧ (∀ b ∈ sc.heap, b = true) ∧ sc.file_content.length = 20 ∧
  (seen ∧ is_touchkey name → sc.pwr.touchkey_power_path = some (enabled_path k)) ∧
  (¬ (seen ∧ is_touchkey name) → sc.pwr.touchkey_power_path = pwr0.touchkey_power_path) ∧
  (seen ∧ is_touchscreen name → sc.pwr.touchscreen_power_path = some (enabled_path k)) ∧
  (¬ (seen ∧ is_touchscreen name) →
    sc.pwr.touchscreen_power_path = pwr0.touchscreen_power_path)

/-- A world with the nodes of a device: the governor is "interactive" with its
three nodes, the frequencies are 400000, 800000 and 1200000, the panel is
dark, the input directory 1 is the touch-key device and the input directory 2
the touchscreen, both with an `enabled` node reading "1". -/
def device_world : World :=
  { empty_world with
    node := fun p =>
      if p = SCALING_GOVERNOR_PATH then some (plain_node "interactive\n")
      else if p = PANEL_BRIGHTNESS then some (plain_node "0\n")
      else if p = SCALING_MIN_FREQ_PATH then some (plain_node "400000\n")
      else if p = CPU_MAX_FREQ_PATH then some (plain_node "1200000\n")
      else if p = SCALING_MAX_FREQ_PATH then some (plain_node "1200000\n")
      else if p = "/sys/devices/system/cpu/cpufreq/interactive/hispeed_freq" then
        some (plain_node "800000\n")
      else if p = "/sys/devices/system/cpu/cpufreq/interactive/io_is_busy" then
        some (plain_node "0\n")
      else if p = "/sys/class/input/input1/name" then some (plain_node "sec_touchkey\n")
      else if p = "/sys/class/input/input2/name" then some (plain_node "sec_touchscreen\n")
      else if p = "/sys/class/input/input1/enabled" then some (plain_node "1\n")
      else if p = "/sys/class/input/input2/enabled" then some (plain_node "1\n")
      else if p = "/sys/devices/system/cpu/cpufreq/interactive/boostpulse" then
        some (plain_node "")
      else none
    dir := fun p =>
      if p = "/sys/class/input/input1" ∨ p = "/sys/class/input/input2" then
        some [".", "..", "name", "enabled"]
      else none }

/-! # Theorems -/

/-! ## Lemmas on traces -/

theorem sysfs_writes_append (a b : List Event) :
    sysfs_writes (a ++ b) = sysfs_writes a ++ sysfs_writes b := by
  induction a with
  | nil => rfl
  | cons e t ih => cases e <;> simp [sysfs_writes, ih]

theorem writes_to_append (p : Option String) (a b : List Event) :
    writes_to p (a ++ b) = writes_to p a ++ writes_to p b := by
  induction a with
  | nil => rfl
  | cons e t ih =>
    cases e <;> simp [writes_to, ih]
    split <;> simp

theorem sysfs_writes_sysfs_write (w : World) (p : Option String) (s : List Char) :
    sysfs_writes (sysfs_write w p s) = [(p, cstr s)] := by
  unfold sysfs_write
  split
  · simp [sysfs_writes]
  · split
    · simp [sysfs_writes]
    · split <;> simp [sysfs_writes]

theorem writes_to_sysfs_write (w : World) (q p : Option String) (s : List Char) :
    writes_to q (sysfs_write w p s) = if p = q then [cstr s] else [] := by
  unfold sysfs_write
  split
  · simp [writes_to]
  · split
    · simp [writes_to]
    · split <;> simp [writes_to]

/-! ## What one `sysfs_write` call does -/

theorem open_neg (w : World) (p : Option String) (wr : Bool) (h : w.open p wr < 0) :
    w.open p wr = -1 := by
  unfold World.open at h ⊢
  cases hl : w.lookup p with
  | none => rfl
  | some n =>
    simp only [hl] at h ⊢
    by_cases c : (if wr = true then n.wr_ok else n.rd_ok) = true
    · rw [if_pos c] at h
      omega
    · rw [if_neg c]

/-- On a node that opens for writing, `sysfs_write` makes one `write(2)` with
the text on the descriptor of that node, and reports it when it fails. -/
theorem sysfs_write_opened (w : World) (p : Option String) (n : Node) (s : List Char)
    (hl : w.lookup p = some n) (hw : n.wr_ok = true) :
    sysfs_write w p s =
      [Event.sysfs_write p (cstr s), Event.open p true (w.fd : Int),
       Event.write (w.fd : Int) p (cstr s) n.write_ok] ++
      (if n.write_ok = true then [] else [Event.aloge "Error writing to %s: %s\n" p]) := by
  have ho : w.open p true = (w.fd : Int) := by simp [World.open, hl, hw]
  unfold sysfs_write
  rw [ho, if_neg (by omega), hl]
  by_cases hok : n.write_ok = true
  · simp [hok]
  · simp [hok]

/-- On a path that does not open for writing, `sysfs_write` reports the
failure of `open` and makes no `write(2)`. -/
theorem sysfs_write_failed (w : World) (p : Option String) (s : List Char)
    (h : w.open p true < 0) :
    sysfs_write w p s =
      [Event.sysfs_write p (cstr s), Event.open p true (-1),
       Event.aloge "Error opening %s: %s\n" p] := by
  unfold sysfs_write
  rw [if_pos h, open_neg w p true h]

theorem node_writes_append (p : Option String) (a b : List Event) :
    node_writes p (a ++ b) = node_writes p a ++ node_writes p b := by
  induction a with
  | nil => rfl
  | cons e t ih =>
    cases e <;> simp [node_writes, ih]
    split <;> simp

theorem all_writes_append (a b : List Event) :
    all_writes (a ++ b) = all_writes a ++ all_writes b := by
  induction a with
  | nil => rfl
  | cons e t ih => cases e <;> simp [all_writes, ih]

theorem node_writes_sysfs_write_ne (w : World) (q p : Option String) (s : List Char)
    (h : p ≠ q) : node_writes q (sysfs_write w p s) = [] := by
  unfold sysfs_write
  split
  · simp [node_writes]
  · split
    · simp [node_writes]
    · split <;> simp [node_writes, h]

theorem node_writes_sysfs_write_opened (w : World) (p : Option String) (n : Node)
    (s : List Char) (hl : w.lookup p = some n) (hw : n.wr_ok = true) :
    node_writes p (sysfs_write w p s) = [(cstr s, n.write_ok)] ∧
    all_writes (sysfs_write w p s) = [(p, cstr s, n.write_ok)] := by
  rw [sysfs_write_opened w p n s hl hw]
  by_cases hok : n.write_ok = true <;> simp [node_writes, all_writes, hok]

theorem node_writes_sysfs_write_failed (w : World) (q p : Option String) (s : List Char)
    (h : w.open p true < 0) :
    node_writes q (sysfs_write w p s) = [] ∧ all_writes (sysfs_write w p s) = [] := by
  rw [sysfs_write_failed w p s h]
  simp [node_writes, all_writes]

/-! ## Power profiles -/

/-- C1: for a requested profile `r` among PowerSave, Balanced and
HighPerformance, `set_power_profile` does nothing when `r` is the current
profile.  Otherwise it sets the current profile to `r` whatever the outcome,
and makes exactly one `sysfs_write` call, on the `scaling_max_freq` node with
the cached frequency string of `r`: when that node opens for writing, the
whole trace is that call, the `open` of the node and one `write(2)` of the
string on it (followed by the report when the write fails); when it does not
open, the whole trace is the call, the failed `open` and its report.  No
other node is opened or written. -/
theorem C1_set_power_profile (w : World) (st : State) (r : Int) (hr : valid_profile r) :
    (r = st.current_power_profile → set_power_profile w st r = (st, [])) ∧
    (r ≠ st.current_power_profile →
      (set_power_profile w st r).1 = { st with current_power_profile := r } ∧
      sysfs_writes (set_power_profile w st r).2 =
        [(some SCALING_MAX_FREQ_PATH, profile_text st r)] ∧
      (∀ n, w.node SCALING_MAX_FREQ_PATH = some n → n.wr_ok = true →
        (set_power_profile w st r).2 =
          [Event.sysfs_write (some SCALING_MAX_FREQ_PATH) (profile_text st r),
           Event.open (some SCALING_MAX_FREQ_PATH) true (w.fd : Int),
           Event.write (w.fd : Int) (some SCALING_MAX_FREQ_PATH) (profile_text st r)
             n.write_ok] ++
          (if n.write_ok = true then []
           else [Event.aloge "Error writing to %s: %s\n" (some SCALING_MAX_FREQ_PATH)])) ∧
      (w.open (some SCALING_MAX_FREQ_PATH) true < 0 →
        (set_power_profile w st r).2 =
          [Event.sysfs_write (some SCALING_MAX_FREQ_PATH) (profile_text st r),
           Event.open (some SCALING_MAX_FREQ_PATH) true (-1),
           Event.aloge "Error opening %s: %s\n" (some SCALING_MAX_FREQ_PATH)])) := by
  constructor
  · intro h
    simp [set_power_profile, h]
  · intro h
    have h' : ¬ st.current_power_profile = r := fun e => h e.symm
    have hl : ∀ n, w.node SCALING_MAX_FREQ_PATH = some n →
        w.lookup (some SCALING_MAX_FREQ_PATH) = some n := by
      intro n hn
      simp only [World.lookup]
      rw [if_neg (by decide)]
      exact hn
    simp only [valid_profile, PROFILE_POWER_SAVE, PROFILE_BALANCED,
      PROFILE_HIGH_PERFORMANCE] at hr
    have key : ∀ buf : List Char,
        sysfs_writes (sysfs_write w (some SCALING_MAX_FREQ_PATH) buf) =
          [(some SCALING_MAX_FREQ_PATH, cstr buf)] ∧
        (∀ n, w.node SCALING_MAX_FREQ_PATH = some n → n.wr_ok = true →
          sysfs_write w (some SCALING_MAX_FREQ_PATH) buf =
            [Event.sysfs_write (some SCALING_MAX_FREQ_PATH) (cstr buf),
             Event.open (some SCALING_MAX_FREQ_PATH) true (w.fd : Int),
             Event.write (w.fd : Int) (some SCALING_MAX_FREQ_PATH) (cstr buf) n.write_ok] ++
            (if n.write_ok = true then []
             else [Event.aloge "Error writing to %s: %s\n" (some SCALING_MAX_FREQ_PATH)])) ∧
        (w.open (some SCALING_MAX_FREQ_PATH) true < 0 →
          sysfs_write w (some SCALING_MAX_FREQ_PATH) buf =
            [Event.sysfs_write (some SCALING_MAX_FREQ_PATH) (cstr buf),
             Event.open (some SCALING_MAX_FREQ_PATH) true (-1),
             Event.aloge "Error opening %s: %s\n" (some SCALING_MAX_FREQ_PATH)]) :=
      fun buf => ⟨sysfs_writes_sysfs_write _ _ _,
        fun n hn hw => sysfs_write_opened w _ n buf (hl n hn) hw,
        fun ho => sysfs_write_failed w _ buf ho⟩
    rcases hr with hr | hr | hr <;> subst hr
    · have e : set_power_profile w st 0 = ({ st with current_power_profile := 0 },
          sysfs_write w (some SCALING_MAX_FREQ_PATH) st.pwr.cpu_min_freq) := by
        simp [set_power_profile, h', PROFILE_POWER_SAVE]
      rw [e]
      exact ⟨rfl, key st.pwr.cpu_min_freq⟩
    · have e : set_power_profile w st 1 = ({ st with current_power_profile := 1 },
          sysfs_write w (some SCALING_MAX_FREQ_PATH) st.pwr.cpu_hispeed_freq) := by
        simp [set_power_profile, h', PROFILE_POWER_SAVE, PROFILE_BALANCED]
      rw [e]
      exact ⟨rfl, key st.pwr.cpu_hispeed_freq⟩
    · have e : set_power_profile w st 2 = ({ st with current_power_profile := 2 },
          sysfs_write w (some SCALING_MAX_FREQ_PATH) st.pwr.cpu_max_freq) := by
        simp [set_power_profile, h', PROFILE_POWER_SAVE, PROFILE_BALANCED,
          PROFILE_HIGH_PERFORMANCE]
      rw [e]
      exact ⟨rfl, key st.pwr.cpu_max_freq⟩

/-! ## Writes to an empty or unset path -/

/-- C9, counterexample: `sysfs_write` with the empty path calls `open`, and
reports the failure with `ALOGE`. -/
theorem C9_counterexample :
    Event.open (some "") true (-1) ∈ sysfs_write empty_world (some "") "1".toList ∧
    Event.aloge "Error opening %s: %s\n" (some "") ∈
      sysfs_write empty_world (some "") "1".toList := by
  decide

/-- C9, amended: `sysfs_write` with a `NULL` or empty path calls `open` once,
the call fails, the failure is reported with `ALOGE`, and nothing is written. -/
theorem C9_sysfs_write_unset (w : World) (path : Option String) (s : List Char)
    (hp : path = none ∨ path = some "") :
    sysfs_write w path s =
      [Event.sysfs_write path (cstr s), Event.open path true (-1),
       Event.aloge "Error opening %s: %s\n" path] := by
  rcases hp with hp | hp <;> subst hp <;>
    simp [sysfs_write, World.open, World.lookup]

/-- Witness of C9 (amended): the `NULL` path. -/
theorem C9_sysfs_write_unset_witness :
    sysfs_write empty_world none "0".toList =
      [Event.sysfs_write none (cstr "0".toList), Event.open none true (-1),
       Event.aloge "Error opening %s: %s\n" none] :=
  C9_sysfs_write_unset empty_world none "0".toList (Or.inl rfl)

/-! ## The current profile over a run -/

theorem opens_append (a b : List Event) : opens (a ++ b) = opens a + opens b := by
  induction a with
  | nil => simp [opens]
  | cons e t ih => cases e <;> simp [opens, ih]; omega

theorem opens_ok_append (a b : List Event) : opens_ok (a ++ b) = opens_ok a + opens_ok b := by
  induction a with
  | nil => simp [opens_ok]
  | cons e t ih => cases e <;> simp [opens_ok, ih]; omega

theorem open_reports_append (a b : List Event) :
    open_reports (a ++ b) = open_reports a + open_reports b := by
  induction a with
  | nil => simp [open_reports]
  | cons e t ih => cases e <;> simp [open_reports, ih]; omega

/-- An interaction hint on a state that holds a descriptor: no `open`, no
report, descriptor and flag unchanged. -/
theorem hint_fd_kept (w : World) (st : State) (d : Int) (h : st.pwr.boostpulse_fd ≥ 0) :
    (samsung_power_hint w st power_hint_t.POWER_HINT_INTERACTION d).1.pwr.boostpulse_fd =
      st.pwr.boostpulse_fd ∧
    (samsung_power_hint w st power_hint_t.POWER_HINT_INTERACTION d).1.pwr.boostpulse_warned =
      st.pwr.boostpulse_warned ∧
    opens (samsung_power_hint w st power_hint_t.POWER_HINT_INTERACTION d).2 = 0 ∧
    open_reports (samsung_power_hint w st power_hint_t.POWER_HINT_INTERACTION d).2 = 0 := by
  have hb : boostpulse_open w st = (st, []) := by
    unfold boostpulse_open
    rw [if_neg (by omega)]
  simp only [samsung_power_hint, hb]
  split_ifs <;> simp [opens, open_reports]

/-- An interaction hint opens successfully at most once, and only when no
descriptor is held; afterwards a descriptor is held. -/
theorem hint_open_budget (w : World) (st : State) (d : Int) :
    opens_ok (samsung_power_hint w st power_hint_t.POWER_HINT_INTERACTION d).2 +
      (if (samsung_power_hint w st power_hint_t.POWER_HINT_INTERACTION d).1.pwr.boostpulse_fd < 0
        then 1 else 0) ≤
    (if st.pwr.boostpulse_fd < 0 then 1 else 0) := by
  simp only [samsung_power_hint, boostpulse_open]
  split_ifs <;> simp_all [opens_ok] <;> omega

/-- An interaction hint reports an `open` failure at most once, and only
while the flag is 0; afterwards the flag is 1. -/
theorem hint_report_budget (w : World) (st : State) (d : Int) :
    open_reports (samsung_power_hint w st power_hint_t.POWER_HINT_INTERACTION d).2 +
      (if (samsung_power_hint w st power_hint_t.POWER_HINT_INTERACTION d).1.pwr.boostpulse_warned = 0
        then 1 else 0) ≤
    (if st.pwr.boostpulse_warned = 0 then 1 else 0) := by
  simp only [samsung_power_hint, boostpulse_open]
  split_ifs <;> simp_all [open_reports]

/-- An interaction hint leaves a flag that is 1 at 1 and a flag that is 0 at 0 or 1. -/
theorem hint_warned (w : World) (st : State) (d : Int) :
    (st.pwr.boostpulse_warned = 1 →
      (samsung_power_hint w st power_hint_t.POWER_HINT_INTERACTION d).1.pwr.boostpulse_warned = 1 ∧
      open_reports (samsung_power_hint w st power_hint_t.POWER_HINT_INTERACTION d).2 = 0) ∧
    (st.pwr.boostpulse_warned = 0 →
      (samsung_power_hint w st power_hint_t.POWER_HINT_INTERACTION d).1.pwr.boostpulse_warned = 0 ∨
      (samsung_power_hint w st power_hint_t.POWER_HINT_INTERACTION d).1.pwr.boostpulse_warned = 1) := by
  simp only [samsung_power_hint, boostpulse_open]
  split_ifs <;> simp_all [open_reports]

theorem run_hints_cons (st : State) (x : Int × World) (l : List (Int × World)) :
    run st (interaction_hints (x :: l)) =
      ((run (samsung_power_hint x.2 st power_hint_t.POWER_HINT_INTERACTION x.1).1
          (interaction_hints l)).1,
       (samsung_power_hint x.2 st power_hint_t.POWER_HINT_INTERACTION x.1).2 ++
         (run (samsung_power_hint x.2 st power_hint_t.POWER_HINT_INTERACTION x.1).1
            (interaction_hints l)).2) := by
  simp [interaction_hints, run, step]

theorem run_hints_append (st : State) (a b : List (Int × World)) :
    run st (interaction_hints (a ++ b)) =
      ((run (run st (interaction_hints a)).1 (interaction_hints b)).1,
       (run st (interaction_hints a)).2 ++
         (run (run st (interaction_hints a)).1 (interaction_hints b)).2) := by
  induction a generalizing st with
  | nil => simp [interaction_hints, run]
  | cons x rest ih =>
    rw [List.cons_append, run_hints_cons, run_hints_cons, ih]
    simp [List.append_assoc]

theorem run_hints_fd_kept (st : State) (l : List (Int × World))
    (h : st.pwr.boostpulse_fd ≥ 0) :
    (run st (interaction_hints l)).1.pwr.boostpulse_fd = st.pwr.boostpulse_fd ∧
    opens (run st (interaction_hints l)).2 = 0 := by
  induction l generalizing st with
  | nil => simp [interaction_hints, run, opens]
  | cons x l ih =>
    rw [run_hints_cons]
    obtain ⟨h1, _, h3, _⟩ := hint_fd_kept x.2 st x.1 h
    obtain ⟨i1, i2⟩ := ih _ (by rw [h1]; exact h)
    exact ⟨by rw [i1, h1], by rw [opens_append, h3, i2]⟩

theorem run_hints_open_budget (st : State) (l : List (Int × World)) :
    opens_ok (run st (interaction_hints l)).2 ≤ (if st.pwr.boostpulse_fd < 0 then 1 else 0) := by
  induction l generalizing st with
  | nil => simp [interaction_hints, run, opens_ok]
  | cons x l ih =>
    rw [run_hints_cons]
    have h1 := hint_open_budget x.2 st x.1
    have h2 := ih (samsung_power_hint x.2 st power_hint_t.POWER_HINT_INTERACTION x.1).1
    simp only [opens_ok_append]
    omega

theorem run_hints_report_budget (st : State) (l : List (Int × World)) :
    open_reports (run st (interaction_hints l)).2 ≤
      (if st.pwr.boostpulse_warned = 0 then 1 else 0) := by
  induction l generalizing st with
  | nil => simp [interaction_hints, run, open_reports]
  | cons x l ih =>
    rw [run_hints_cons]
    have h1 := hint_report_budget x.2 st x.1
    have h2 := ih (samsung_power_hint x.2 st power_hint_t.POWER_HINT_INTERACTION x.1).1
    simp only [open_reports_append]
    omega

theorem run_hints_warned_kept (st : State) (l : List (Int × World))
    (h : st.pwr.boostpulse_warned = 1) :
    (run st (interaction_hints l)).1.pwr.boostpulse_warned = 1 ∧
    open_reports (run st (interaction_hints l)).2 = 0 := by
  induction l generalizing st with
  | nil => simp [interaction_hints, run, open_reports, h]
  | cons x l ih =>
    rw [run_hints_cons]
    obtain ⟨h1, h2⟩ := (hint_warned x.2 st x.1).1 h
    obtain ⟨i1, i2⟩ := ih _ h1
    exact ⟨i1, by rw [open_reports_append, h2, i2]⟩

theorem run_hints_warned_range (st : State) (l : List (Int × World))
    (h : st.pwr.boostpulse_warned = 0 ∨ st.pwr.boostpulse_warned = 1) :
    (run st (interaction_hints l)).1.pwr.boostpulse_warned = 0 ∨
    (run st (interaction_hints l)).1.pwr.boostpulse_warned = 1 := by
  induction l generalizing st with
  | nil => simpa [interaction_hints, run] using h
  | cons x l ih =>
    rw [run_hints_cons]
    apply ih
    rcases h with h | h
    · exact (hint_warned x.2 st x.1).2 h
    · exact Or.inr ((hint_warned x.2 st x.1).1 h).1

/-- C10: from a state with `boostpulse_fd = -1` and `boostpulse_warned = 0`,
over every sequence of interaction hints (split anywhere into a first part
`l1` and a rest `l2`) and all outcomes of `open` and `write`: at most one
`open` succeeds and at most one `open` failure is reported in the whole
sequence; the flag is 0 or 1 at the end; once a descriptor is held (after
`l1`), the rest makes no `open` call and ends with the same descriptor; once
the flag is 1, it stays 1 and nothing more is reported. -/
theorem C10_boostpulse_once (st : State) (l1 l2 : List (Int × World))
    (hfd : st.pwr.boostpulse_fd = -1) (hw : st.pwr.boostpulse_warned = 0) :
    run st (interaction_hints (l1 ++ l2)) =
      ((run (run st (interaction_hints l1)).1 (interaction_hints l2)).1,
       (run st (interaction_hints l1)).2 ++
         (run (run st (interaction_hints l1)).1 (interaction_hints l2)).2) ∧
    opens_ok (run st (interaction_hints (l1 ++ l2))).2 ≤ 1 ∧
    open_reports (run st (interaction_hints (l1 ++ l2))).2 ≤ 1 ∧
    ((run st (interaction_hints (l1 ++ l2))).1.pwr.boostpulse_warned = 0 ∨
     (run st (interaction_hints (l1 ++ l2))).1.pwr.boostpulse_warned = 1) ∧
    ((run st (interaction_hints l1)).1.pwr.boostpulse_fd ≥ 0 →
      (run (run st (interaction_hints l1)).1 (interaction_hints l2)).1.pwr.boostpulse_fd =
        (run st (interaction_hints l1)).1.pwr.boostpulse_fd ∧
      opens (run (run st (interaction_hints l1)).1 (interaction_hints l2)).2 = 0) ∧
    ((run st (interaction_hints l1)).1.pwr.boostpulse_warned = 1 →
      (run (run st (interaction_hints l1)).1 (interaction_hints l2)).1.pwr.boostpulse_warned = 1 ∧
      open_reports (run (run st (interaction_hints l1)).1 (interaction_hints l2)).2 = 0) := by
  refine ⟨?_, ?_, ?_, ?_, ?_, ?_⟩
  · exact run_hints_append _ _ _
  · have := run_hints_open_budget st (l1 ++ l2)
    simp only [hfd] at this
    simpa using this
  · have := run_hints_report_budget st (l1 ++ l2)
    simp only [hw] at this
    simpa using this
  · exact run_hints_warned_range st (l1 ++ l2) (Or.inl hw)
  · exact run_hints_fd_kept _ l2
  · exact run_hints_warned_kept _ l2

/-! ## C strings -/

theorem char_sub_ne_zero (a b : Char) (h : a ≠ b) : ((a.toNat : Int) - (b.toNat : Int)) ≠ 0 := by
  intro e
  apply h
  have e2 : a.toNat = b.toNat := by omega
  rw [← Char.ofNat_toNat a, ← Char.ofNat_toNat b, e2]

theorem cstr_nil : cstr [] = [] := rfl

theorem cstr_cons (a : Char) (l : List Char) :
    cstr (a :: l) = if a = NUL then [] else a :: cstr l := by
  by_cases h : a = NUL
  · simp [cstr, List.takeWhile, h]
  · have h2 : (a != NUL) = true := by simpa using h
    simp [cstr, List.takeWhile, h, h2]

theorem cstr_append_nul (d x : List Char) : cstr (d ++ NUL :: x) = cstr d := by
  induction d with
  | nil => simp [cstr_cons, cstr_nil]
  | cons a t ih => simp only [List.cons_append, cstr_cons, ih]

theorem cstr_of_no_nul (d : List Char) (h : ∀ c ∈ d, c ≠ NUL) : cstr d = d := by
  induction d with
  | nil => rfl
  | cons a t ih =>
    rw [cstr_cons, if_neg (h a (List.mem_cons_self _ _)),
      ih (fun c hc => h c (List.mem_cons_of_mem _ hc))]

theorem cstr_no_nul (d : List Char) : ∀ c ∈ cstr d, c ≠ NUL := by
  intro c hc
  have := List.mem_takeWhile_imp hc
  simpa using this

theorem store_terminated (buf d : List Char) (h : d.length < buf.length) :
    store buf (d ++ [NUL]) = d ++ NUL :: buf.drop (d.length + 1) := by
  unfold store
  rw [List.take_of_length_le]
  · simp
  · simp
    omega

theorem cstr_store (buf d : List Char) (h : d.length < buf.length) :
    cstr (store buf (d ++ [NUL])) = cstr d := by
  rw [store_terminated buf d h, cstr_append_nul]

/-- When the literal `lit` has `n` bytes, none of them zero, `strncmp` returns
zero exactly when the C string in `buf` starts with `lit`. -/
theorem strncmp_eq_zero_iff (lit buf : List Char) (hl : ∀ c ∈ lit, c ≠ NUL) :
    strncmp buf lit lit.length = 0 ↔ (cstr buf).take lit.length = lit := by
  induction lit generalizing buf with
  | nil => simp [strncmp]
  | cons c l ih =>
    have hc : c ≠ NUL := hl c (List.mem_cons_self _ _)
    have hl2 : ∀ x ∈ l, x ≠ NUL := fun x hx => hl x (List.mem_cons_of_mem _ hx)
    cases buf with
    | nil =>
      simp only [List.length_cons, strncmp, List.headD_nil, List.headD_cons, cstr_nil,
        List.take_nil]
      rw [if_pos (Ne.symm hc)]
      constructor
      · intro e
        exact absurd e (char_sub_ne_zero _ _ (Ne.symm hc))
      · intro e
        cases e
    | cons a as =>
      simp only [List.length_cons, strncmp, List.headD_cons, List.tail_cons, cstr_cons]
      by_cases hac : a = c
      · subst hac
        simp only [ne_eq, not_true_eq_false, if_false, hc, List.take_succ_cons, List.cons.injEq,
          true_and]
        exact ih as hl2
      · rw [if_pos hac]
        constructor
        · intro e
          exact absurd e (char_sub_ne_zero _ _ hac)
        · intro e
          exfalso
          by_cases ha : a = NUL
          · simp [ha] at e
          · simp [ha] at e
            exact hac e.1

theorem strip_loop_spec (pre post : List Char) (h : ∀ c ∈ pre, c ≠ NUL) :
    cstr (strip_loop (pre ++ NUL :: post) pre.length) = pre.rdropWhile is_eol := by
  induction pre using List.reverseRecOn generalizing post with
  | nil => simp [strip_loop, cstr_cons, List.rdropWhile]
  | append_singleton l a ih =>
    have hl : ∀ c ∈ l, c ≠ NUL := fun c hc => h c (List.mem_append_left _ hc)
    have hget : (l ++ [a] ++ NUL :: post).getD l.length NUL = a := by
      rw [List.append_assoc, List.getD_append_right _ _ _ _ (le_refl _)]
      simp
    simp only [List.length_append, List.length_singleton, strip_loop, hget]
    by_cases he : a = LF ∨ a = CR
    · rw [if_pos he]
      have hset : (l ++ [a] ++ NUL :: post).set l.length NUL = l ++ NUL :: (NUL :: post) := by
        simp [List.append_assoc, List.set_append_right]
      rw [hset, ih (NUL :: post) hl, List.rdropWhile_concat_pos]
      simpa [is_eol] using he
    · rw [if_neg he, List.append_assoc, List.singleton_append]
      rw [List.rdropWhile_concat_neg]
      · have : l ++ a :: NUL :: post = (l ++ [a]) ++ NUL :: post := by simp
        rw [this, cstr_append_nul, cstr_of_no_nul _ h]
      · simpa [is_eol] using he

/-! ## The governor paths -/

theorem terminated_split (d x : List Char) :
    ∃ post, d ++ NUL :: x = cstr d ++ NUL :: post := by
  induction d with
  | nil => exact ⟨x, by simp [cstr_nil]⟩
  | cons a t ih =>
    by_cases ha : a = NUL
    · exact ⟨t ++ NUL :: x, by simp [cstr_cons, ha]⟩
    · obtain ⟨post, hp⟩ := ih
      exact ⟨post, by simp [cstr_cons, ha, hp]⟩

theorem sysfs_read_ok (w : World) (p : String) (n : Node) (d s : List Char) (k : Nat)
    (hp : p ≠ "") (hnode : w.node p = some n) (hrd : n.rd_ok = true)
    (hdata : n.data = some d) :
    sysfs_read w (some p) s k =
      (0, store s (d.take (k - 1) ++ [NUL]), [Event.open (some p) false (w.fd : Int)]) := by
  have hl : w.lookup (some p) = some n := by simp [World.lookup, hp, hnode]
  have ho : w.open (some p) false = (w.fd : Int) := by simp [World.open, hl, hrd]
  unfold sysfs_read
  rw [ho, if_neg (by omega), hl]
  simp [hdata]

/-- The governor buffer after a successful `get_scaling_governor` holds the
governor name. -/
theorem get_scaling_governor_ok (w : World) (st : State) (n : Node) (content : List Char)
    (hlen : st.governor.length = 20)
    (hnode : w.node SCALING_GOVERNOR_PATH = some n) (hrd : n.rd_ok = true)
    (hdata : n.data = some content) :
    (get_scaling_governor w st).1 = 0 ∧
    cstr (get_scaling_governor w st).2.1.governor = governor_name content ∧
    governor_paths (get_scaling_governor w st).2.1 = governor_paths st := by
  have hr := sysfs_read_ok w SCALING_GOVERNOR_PATH n content st.governor 20 (by decide)
    hnode hrd hdata
  have hlt : (content.take 19).length < st.governor.length := by
    rw [hlen, List.length_take]
    omega
  unfold get_scaling_governor
  simp only [hr, Nat.add_one_sub_one]
  rw [if_neg (by decide)]
  refine ⟨rfl, ?_, rfl⟩
  simp only [Nat.reduceSub, strlen, cstr_store _ _ hlt]
  rw [store_terminated _ _ hlt]
  obtain ⟨post, hp⟩ := terminated_split (content.take 19) (st.governor.drop ((content.take 19).length + 1))
  rw [hp, strip_loop_spec _ _ (cstr_no_nul _)]
  rfl

/-- C2: when the node `scaling_governor` delivers `content`, so that the
governor name is `content` cut to 19 bytes without its trailing line feeds and
carriage returns, `get_sysfs_path`, called while the three paths are still
empty, sets them to the `interactive` family when the first 11 characters of
the name are "interactive", to the `intelliactive` family when the first 13
are "intelliactive", and leaves them empty otherwise. -/
theorem C2_get_sysfs_path (w : World) (st : State) (n : Node) (content : List Char)
    (hlen : st.governor.length = 20) (hempty : governor_paths st = ("", "", ""))
    (hnode : w.node SCALING_GOVERNOR_PATH = some n) (hrd : n.rd_ok = true)
    (hdata : n.data = some content) :
    (get_sysfs_path w st).1 = 0 ∧
    governor_paths (get_sysfs_path w st).2.1 =
      if (governor_name content).take 11 = "interactive".toList then
        ("/sys/devices/system/cpu/cpufreq/interactive/hispeed_freq",
         "/sys/devices/system/cpu/cpufreq/interactive/io_is_busy",
         "/sys/devices/system/cpu/cpufreq/interactive/boostpulse")
      else if (governor_name content).take 13 = "intelliactive".toList then
        ("/sys/devices/system/cpu/cpufreq/intelliactive/hispeed_freq",
         "/sys/devices/system/cpu/cpufreq/intelliactive/io_is_busy",
         "/sys/devices/system/cpu/cpufreq/intelliactive/boostpulse")
      else ("", "", "") := by
  obtain ⟨h1, h2, h3⟩ := get_scaling_governor_ok w st n content hlen hnode hrd hdata
  have e1 := strncmp_eq_zero_iff "interactive".toList (get_scaling_governor w st).2.1.governor
    (by decide)
  have e2 := strncmp_eq_zero_iff "intelliactive".toList (get_scaling_governor w st).2.1.governor
    (by decide)
  rw [h2] at e1 e2
  change strncmp _ _ 11 = 0 ↔ _ at e1
  change strncmp _ _ 13 = 0 ↔ _ at e2
  unfold get_sysfs_path
  simp only [h1]
  rw [if_neg (by decide)]
  by_cases c1 : (governor_name content).take 11 = "interactive".toList
  · rw [if_pos (e1.2 c1), if_pos c1]
    exact ⟨rfl, rfl⟩
  · rw [if_neg (fun e => c1 (e1.1 e)), if_neg c1]
    by_cases c2 : (governor_name content).take 13 = "intelliactive".toList
    · rw [if_pos (e2.2 c2), if_pos c2]
      exact ⟨rfl, rfl⟩
    · rw [if_neg (fun e => c2 (e2.1 e)), if_neg c2]
      exact ⟨rfl, by rw [h3, hempty]⟩


/-- Witness of C2: the governor node delivers "interactive_foo" and a line feed. -/
theorem C2_get_sysfs_path_witness :
    governor_paths (get_sysfs_path (governor_world "interactive_foo\n") initial_state).2.1 =
      ("/sys/devices/system/cpu/cpufreq/interactive/hispeed_freq",
       "/sys/devices/system/cpu/cpufreq/interactive/io_is_busy",
       "/sys/devices/system/cpu/cpufreq/interactive/boostpulse") := by
  have h := (C2_get_sysfs_path (governor_world "interactive_foo\n") initial_state
    (plain_node "interactive_foo\n") "interactive_foo\n".toList rfl rfl rfl rfl rfl).2
  rw [h]
  decide

/-! ## The panel brightness -/

/-- The sum `read_panel_brightness` returns is the sum of the digit values of
the four bytes of its array. -/
theorem brightness_loop_four (b0 b1 b2 b3 : Char) :
    brightness_loop [b0, b1, b2, b3] 4 0 0 =
      digit_value b0 + digit_value b1 + digit_value b2 + digit_value b3 := by
  have hb : ∀ c : Char, digit_value c ≤ 9 := by
    intro c
    unfold digit_value
    split
    · rename_i h
      simp [isdigit] at h
      omega
    · omega
  have h0 := hb b0
  have h1 := hb b1
  have h2 := hb b2
  have h3 := hb b3
  simp only [brightness_loop, List.getD_cons_zero, List.getD_cons_succ, digit_value] at *
  split_ifs at * <;> omega

/-- C6, the code at the failing input: the brightness node delivers "0" and
the array `panel_brightness` still holds the bytes "255" and a line feed.  The
read stores '0' and the terminator, the loop also adds the stale '5' at index
2, and the result is 5; `samsung_power_set_interactive(0)` then takes the
screen as lit and makes the io-busy write only.  With zero bytes in the array
the result is 0, and content "255" gives 12.  The content "0" with a line
feed over the stale bytes "2555" gives 5 as well (the stale '5' at index 3). -/
theorem C6_stale_bytes_counted :
    (read_panel_brightness (brightness_world "0" "255\n")).map Prod.fst = some 5 ∧
    (samsung_power_set_interactive (brightness_world "0" "255\n") initial_state 0).map
      (fun r => sysfs_writes r.2) = some [(some "", "0".toList)] ∧
    (read_panel_brightness (brightness_world "0" "")).map Prod.fst = some 0 ∧
    (read_panel_brightness (brightness_world "255" "")).map Prod.fst = some 12 ∧
    (read_panel_brightness (brightness_world "0\n" "2555")).map Prod.fst = some 5 := by
  decide

theorem store_length (buf bytes : List Char) : (store buf bytes).length = buf.length := by
  unfold store
  simp
  omega

theorem store_idem (buf bytes : List Char) : store (store buf bytes) bytes = store buf bytes := by
  have h : (store buf bytes).drop bytes.length = buf.drop bytes.length := by
    unfold store
    rw [List.drop_take, List.drop_append_of_le_length (le_refl _)]
    simp
  unfold store at *
  rw [h]
  congr 1
  have := store_length buf bytes
  unfold store at this
  exact this

/-- Reading the same node twice into the same array gives the array of the
first read. -/
theorem sysfs_read_idem (w : World) (p : Option String) (s : List Char) (k : Nat) :
    (sysfs_read w p (sysfs_read w p s k).2.1 k).2.1 = (sysfs_read w p s k).2.1 := by
  unfold sysfs_read
  split
  · rfl
  · split
    · rfl
    · simp only [store_idem]

theorem touchkey_not_touchscreen (f : List Char)
    (h1 : strncmp f "sec_touchkey".toList 12 = 0)
    (h2 : strncmp f "sec_touchscreen".toList 15 = 0) : False := by
  have e1 := (strncmp_eq_zero_iff "sec_touchkey".toList f (by decide)).1 h1
  have e2 := (strncmp_eq_zero_iff "sec_touchscreen".toList f (by decide)).1 h2
  have e3 : ((cstr f).take 15).take 12 = (cstr f).take 12 := by
    rw [List.take_take]
    rfl
  change List.take 15 _ = _ at e2
  change List.take 12 _ = _ at e1
  rw [e2, e1] at e3
  revert e3
  decide

theorem enabled_path_inj : ∀ i : Fin 20, ∀ j : Fin 20,
    enabled_path i = enabled_path j → i = j := by
  decide

theorem touch_path_ok_ne (k : Nat) (hk : k < 20) (p : Option String)
    (h : touch_path_ok k p) : p ≠ some (enabled_path k) := by
  rcases h with h | ⟨i, hi, h⟩
  · simp [h]
  · rw [h]
    intro e
    have := enabled_path_inj ⟨i, by omega⟩ ⟨k, hk⟩ (Option.some.inj e)
    simp at this
    omega

theorem touch_path_ok_mono (k : Nat) (p : Option String) (h : touch_path_ok k p) :
    touch_path_ok (k + 1) p := by
  rcases h with h | ⟨i, hi, h⟩
  · exact Or.inl h
  · exact Or.inr ⟨i, by omega, h⟩

theorem found_touchkey_inv (k : Nat) (hk : k < 20) (F fc0 : List Char) (sc : Scan)
    (hinv : scan_inv k F fc0 sc) (hkey : strncmp F "sec_touchkey".toList 12 = 0) :
    scan_inv k F fc0 (found_touchkey (enabled_path k) sc) ∧
    (found_touchkey (enabled_path k) sc).file_content = sc.file_content := by
  obtain ⟨h1, _, h3, _⟩ := hinv
  unfold found_touchkey
  split
  · refine ⟨⟨h1, Or.inr ⟨rfl, hkey⟩, h3, ?_⟩, rfl⟩
    intro p hp
    have hp2 : p = enabled_path k := (Option.some.inj hp).symm
    subst hp2
    rcases h3 with h3 | h3
    · exact touch_path_ok_ne k hk _ h3
    · exact absurd h3.2 (fun e => touchkey_not_touchscreen F hkey e)
  · refine ⟨⟨h1, Or.inl (Or.inl rfl), h3, ?_⟩, rfl⟩
    intro p hp
    cases hp

theorem found_touchscreen_inv (k : Nat) (hk : k < 20) (F fc0 : List Char) (sc : Scan)
    (hinv : scan_inv k F fc0 sc) (hscr : strncmp F "sec_touchscreen".toList 15 = 0) :
    scan_inv k F fc0 (found_touchscreen (enabled_path k) sc) := by
  obtain ⟨h1, h2, _, _⟩ := hinv
  unfold found_touchscreen
  split
  · refine ⟨h1, h2, Or.inr ⟨rfl, hscr⟩, ?_⟩
    intro p hp
    show some (enabled_path k) ≠ some p
    intro e
    have hp2 : p = enabled_path k := (Option.some.inj e).symm
    subst hp2
    rcases h2 with h2 | h2
    · exact touch_path_ok_ne k hk _ h2 hp
    · exact touchkey_not_touchscreen F h2.2 hscr
  · refine ⟨h1, h2, Or.inl (Or.inl rfl), ?_⟩
    intro p _ e
    cases e

theorem find_input_nodes_entry_inv (w : World) (k : Nat) (hk : k < 20) (d_name : String)
    (fc0 : List Char) (sc : Scan)
    (hinv : scan_inv k (sysfs_read w (some (input_dir k ++ "/" ++ "name")) fc0 20).2.1 fc0 sc) :
    scan_inv k (sysfs_read w (some (input_dir k ++ "/" ++ "name")) fc0 20).2.1 fc0
      (find_input_nodes_entry w (input_dir k) d_name sc) := by
  have hF : (sysfs_read w (some (input_dir k ++ "/" ++ "name")) sc.file_content 20).2.1 =
      (sysfs_read w (some (input_dir k ++ "/" ++ "name")) fc0 20).2.1 := by
    rcases hinv.1 with h | h
    · rw [h]
    · rw [h, sysfs_read_idem]
  generalize hFdef : (sysfs_read w (some (input_dir k ++ "/" ++ "name")) fc0 20).2.1 = F at *
  unfold find_input_nodes_entry
  by_cases hname : strncmp "name".toList d_name.toList 5 = 0
  · rw [if_pos hname]
    by_cases hm : (malloc sc.heap).1 = false ∨ (malloc (malloc sc.heap).2).1 = false
    · rw [if_pos hm]
      exact hinv
    · rw [if_neg hm]
      have he : input_dir k ++ "/" ++ "enabled" = enabled_path k := rfl
      simp only [hF, he]
      have hinv1 : scan_inv k F fc0
          { sc with file_content := F
                    heap := (malloc (malloc sc.heap).2).2
                    trace := sc.trace ++
                      (sysfs_read w (some (input_dir k ++ "/" ++ "name")) sc.file_content 20).2.2 } :=
        ⟨Or.inr rfl, hinv.2.1, hinv.2.2.1, hinv.2.2.2⟩
      by_cases hkey : strncmp F "sec_touchkey".toList 12 = 0
      · rw [if_pos hkey]
        obtain ⟨i1, i2⟩ := found_touchkey_inv k hk F fc0 _ hinv1 hkey
        split
        · exact i1
        · simp only [i2]
          split
          · rename_i hscr
            exact found_touchscreen_inv k hk F fc0 _ i1 hscr
          · exact i1
      · rw [if_neg hkey]
        split
        · exact hinv1
        · split
          · rename_i hscr
            exact found_touchscreen_inv k hk F fc0 _ hinv1 hscr
          · exact hinv1
  · rw [if_neg hname]
    exact hinv

theorem find_input_nodes_loop_inv (w : World) (k : Nat) (hk : k < 20) (entries : List String)
    (fc0 : List Char) (sc : Scan)
    (hinv : scan_inv k (sysfs_read w (some (input_dir k ++ "/" ++ "name")) fc0 20).2.1 fc0 sc) :
    scan_inv k (sysfs_read w (some (input_dir k ++ "/" ++ "name")) fc0 20).2.1 fc0
      (find_input_nodes_loop w (input_dir k) entries sc) := by
  induction entries generalizing sc with
  | nil => exact hinv
  | cons d rest ih =>
    unfold find_input_nodes_loop
    split
    · exact find_input_nodes_entry_inv w k hk d fc0 sc hinv
    · exact ih _ (find_input_nodes_entry_inv w k hk d fc0 sc hinv)

theorem find_input_nodes_inv (w : World) (k : Nat) (hk : k < 20) (pwr : samsung_power_module)
    (heap : List Bool) (h : paths_inv k pwr) :
    paths_inv (k + 1) (find_input_nodes w pwr heap (input_dir k)).1 := by
  have mono : paths_inv (k + 1) pwr :=
    ⟨touch_path_ok_mono k _ h.1, touch_path_ok_mono k _ h.2.1, h.2.2⟩
  unfold find_input_nodes
  split
  · exact mono
  · rename_i entries _
    have hinv := find_input_nodes_loop_inv w k hk entries (fit 20 (w.stack_file_content (input_dir k)))
      { pwr := pwr, file_content := fit 20 (w.stack_file_content (input_dir k)), heap := heap,
        trace := [], returned := false }
      ⟨Or.inl rfl, Or.inl h.2.1, Or.inl h.1, h.2.2⟩
    obtain ⟨_, h2, h3, h4⟩ := hinv
    refine ⟨?_, ?_, h4⟩
    · rcases h3 with h3 | h3
      · exact touch_path_ok_mono k _ h3
      · exact Or.inr ⟨k, by omega, h3.1⟩
    · rcases h2 with h2 | h2
      · exact touch_path_ok_mono k _ h2
      · exact Or.inr ⟨k, by omega, h2.1⟩

theorem init_touch_loop_inv (w : World) (n : Nat) :
    ∀ (a : Nat) (pwr : samsung_power_module) (heap : List Bool), a + n ≤ 20 →
      paths_inv a pwr → paths_inv (a + n) (init_touch_loop w (List.range' a n) pwr heap).1 := by
  induction n with
  | zero =>
    intro a pwr heap _ h
    exact h
  | succ n ih =>
    intro a pwr heap hle h
    rw [List.range'_succ]
    simp only [init_touch_loop]
    have h1 := find_input_nodes_inv w a (by omega) pwr heap h
    have h2 := ih (a + 1) _ (find_input_nodes w pwr heap (input_dir a)).2.1 (by omega) h1
    have e : a + 1 + n = a + (n + 1) := by omega
    rw [e] at h2
    exact h2

theorem init_touch_input_power_path_inv (w : World) (pwr : samsung_power_module)
    (h : paths_inv 0 pwr) : paths_inv 20 (init_touch_input_power_path w pwr).1 := by
  unfold init_touch_input_power_path
  rw [List.range_eq_range']
  have := init_touch_loop_inv w 20 0 pwr w.heap (by omega) h
  simpa using this


theorem get_scaling_governor_paths (w : World) (st : State) :
    (get_scaling_governor w st).2.1.pwr = st.pwr ∧
    (get_scaling_governor w st).2.1.IO_IS_BUSY_PATH = st.IO_IS_BUSY_PATH := by
  unfold get_scaling_governor
  simp only
  split <;> exact ⟨rfl, rfl⟩

theorem get_sysfs_path_paths (w : World) (st : State) (h : io_path_ok st.IO_IS_BUSY_PATH) :
    (get_sysfs_path w st).2.1.pwr = st.pwr ∧
    io_path_ok (get_sysfs_path w st).2.1.IO_IS_BUSY_PATH := by
  obtain ⟨h1, h2⟩ := get_scaling_governor_paths w st
  unfold get_sysfs_path
  simp only
  split
  · exact ⟨h1, by rw [h2]; exact h⟩
  · split
    · exact ⟨h1, Or.inr (Or.inl rfl)⟩
    · split
      · exact ⟨h1, Or.inr (Or.inr rfl)⟩
      · exact ⟨h1, by rw [h2]; exact h⟩

theorem init_cpufreqs_paths (w : World) (st : State) :
    (init_cpufreqs w st).1.pwr.touchscreen_power_path = st.pwr.touchscreen_power_path ∧
    (init_cpufreqs w st).1.pwr.touchkey_power_path = st.pwr.touchkey_power_path ∧
    (init_cpufreqs w st).1.IO_IS_BUSY_PATH = st.IO_IS_BUSY_PATH :=
  ⟨rfl, rfl, rfl⟩

theorem samsung_power_init_eq (w : World) (st : State) :
    (samsung_power_init w st).1 =
      { (init_cpufreqs w (get_sysfs_path w (get_scaling_governor w st).2.1).2.1).1 with
        pwr := (init_touch_input_power_path w
          (init_cpufreqs w (get_sysfs_path w (get_scaling_governor w st).2.1).2.1).1.pwr).1 } :=
  rfl

theorem samsung_power_init_paths (w : World) :
    paths_inv 20 (samsung_power_init w initial_state).1.pwr ∧
    io_path_ok (samsung_power_init w initial_state).1.IO_IS_BUSY_PATH := by
  obtain ⟨g1, g2⟩ := get_scaling_governor_paths w initial_state
  obtain ⟨p1, p2⟩ := get_sysfs_path_paths w (get_scaling_governor w initial_state).2.1
    (by rw [g2]; exact Or.inl rfl)
  obtain ⟨c1, c2, c3⟩ := init_cpufreqs_paths w
    (get_sysfs_path w (get_scaling_governor w initial_state).2.1).2.1
  rw [p1, g1] at c1 c2
  rw [← c3] at p2
  rw [samsung_power_init_eq]
  generalize (init_cpufreqs w (get_sysfs_path w (get_scaling_governor w initial_state).2.1).2.1).1
    = C at c1 c2 p2
  have hts : C.pwr.touchscreen_power_path = none := c1
  have htk : C.pwr.touchkey_power_path = none := c2
  have h0 : paths_inv 0 C.pwr :=
    ⟨Or.inl hts, Or.inl htk, fun p hp => by rw [htk] at hp; cases hp⟩
  exact ⟨init_touch_input_power_path_inv w C.pwr h0, p2⟩

theorem set_interactive_rest_paths (w : World) (st : State) (on_ : Int)
    (b : Nat × List Event) :
    write_paths (set_interactive_rest w st on_ b).1 = write_paths st := by
  unfold set_interactive_rest
  simp only
  split_ifs <;> rfl

theorem set_interactive_paths (w : World) (st : State) (on_ : Int) (r : State × List Event)
    (h : samsung_power_set_interactive w st on_ = some r) :
    write_paths r.1 = write_paths st := by
  unfold samsung_power_set_interactive at h
  split at h
  · split at h
    · cases h
    · cases h
      exact set_interactive_rest_paths _ _ _ _
  · cases h
    exact set_interactive_rest_paths _ _ _ _

theorem boostpulse_open_paths (w : World) (st : State) :
    write_paths (boostpulse_open w st).1 = write_paths st := by
  unfold boostpulse_open
  split_ifs <;> rfl

theorem set_power_profile_paths (w : World) (st : State) (p : Int) :
    write_paths (set_power_profile w st p).1 = write_paths st := by
  unfold set_power_profile
  split_ifs <;> rfl

theorem step_paths (st : State) (c : Call × World) (r : State × List Event)
    (hs : step st c = some r) : write_paths r.1 = write_paths st := by
  obtain ⟨call, w⟩ := c
  cases call with
  | set_interactive on_ => exact set_interactive_paths w st on_ r hs
  | power_hint hint data =>
    simp only [step, Option.some.injEq] at hs
    subst hs
    cases hint with
    | POWER_HINT_VSYNC => rfl
    | POWER_HINT_INTERACTION =>
      simp only [samsung_power_hint]
      split_ifs <;> first | rfl | exact boostpulse_open_paths w st
    | POWER_HINT_SET_PROFILE => exact set_power_profile_paths w st _
    | other code => rfl

theorem run_paths (st : State) (calls : List (Call × World)) :
    write_paths (run st calls).1 = write_paths st := by
  induction calls generalizing st with
  | nil => rfl
  | cons c rest ih =>
    simp only [run]
    cases hs : step st c with
    | none => rfl
    | some r =>
      show write_paths (run r.1 rest).1 = write_paths st
      rw [ih, step_paths st c r hs]

theorem enabled_path_not_io_busy : ∀ i : Fin 20,
    enabled_path i ≠ "" ∧
    enabled_path i ≠ "/sys/devices/system/cpu/cpufreq/interactive/io_is_busy" ∧
    enabled_path i ≠ "/sys/devices/system/cpu/cpufreq/intelliactive/io_is_busy" := by
  decide

theorem touch_path_not_io_busy (p : Option String) (s : String) (hp : touch_path_ok 20 p)
    (hs : io_path_ok s) : p ≠ some s := by
  rcases hp with hp | ⟨i, hi, hp⟩
  · simp [hp]
  · rw [hp]
    intro e
    have e2 : enabled_path i = s := Option.some.inj e
    obtain ⟨n1, n2, n3⟩ := enabled_path_not_io_busy ⟨i, hi⟩
    rcases hs with hs | hs | hs
    · exact n1 (e2.trans hs)
    · exact n2 (e2.trans hs)
    · exact n3 (e2.trans hs)

/-- In every state the HAL reaches after `init`, the touchscreen path, the
touch-key path and the io-busy path are pairwise different. -/
theorem reach_paths_distinct (boot : World) (calls : List (Call × World)) :
    paths_distinct (reach boot calls) := by
  obtain ⟨⟨h1, h2, h3⟩, h4⟩ := samsung_power_init_paths boot
  have e := run_paths (samsung_power_init boot initial_state).1 calls
  simp only [write_paths, Prod.mk.injEq] at e
  obtain ⟨e1, e2, e3⟩ := e
  unfold paths_distinct reach
  rw [e1, e2, e3]
  exact ⟨touch_path_not_io_busy _ _ h1 h4, touch_path_not_io_busy _ _ h2 h4, h3⟩


/-! ## The interactivity transition -/

theorem writes_to_of_sysfs_writes_nil (q : Option String) (tr : List Event)
    (h : sysfs_writes tr = []) : writes_to q tr = [] := by
  induction tr with
  | nil => rfl
  | cons e t ih =>
    cases e <;> simp [sysfs_writes] at h <;> simp [writes_to, ih h]

theorem node_writes_of_all_writes_nil (q : Option String) (tr : List Event)
    (h : all_writes tr = []) : node_writes q tr = [] := by
  induction tr with
  | nil => rfl
  | cons e t ih =>
    cases e <;> simp [all_writes] at h <;> simp [node_writes, ih h]

theorem quiet_append (a b : List Event) (ha : quiet a) (hb : quiet b) : quiet (a ++ b) := by
  unfold quiet at *
  rw [sysfs_writes_append, all_writes_append, ha.1, ha.2, hb.1, hb.2]
  exact ⟨rfl, rfl⟩

theorem quiet_sysfs_read (w : World) (p : Option String) (s : List Char) (k : Nat) :
    quiet (sysfs_read w p s k).2.2 := by
  unfold sysfs_read
  split
  · exact ⟨rfl, rfl⟩
  · split <;> exact ⟨rfl, rfl⟩

theorem quiet_read_panel_brightness (w : World) (b : Nat × List Event)
    (h : read_panel_brightness w = some b) : quiet b.2 := by
  unfold read_panel_brightness at h
  simp only at h
  split at h
  · cases h
  · split at h
    · cases h
      exact quiet_append _ _ (quiet_sysfs_read _ _ _ _) ⟨rfl, rfl⟩
    · cases h
      exact quiet_sysfs_read _ _ _ _

theorem cstr_one : cstr "1".toList = "1".toList := by decide

theorem cstr_zero : cstr "0".toList = "0".toList := by decide

theorem cstr_on_text (on_ : Int) : cstr (on_text on_) = on_text on_ := by
  unfold on_text
  split
  · exact cstr_one
  · exact cstr_zero

/-- The `write(2)` calls one `sysfs_write` call makes on the node `q`. -/
theorem node_writes_sysfs_write (w : World) (q p : Option String) (s : List Char) :
    node_writes q (sysfs_write w p s) =
      if p = q then
        match w.lookup p with
        | some n => if n.wr_ok = true then [(cstr s, n.write_ok)] else []
        | none => []
      else [] := by
  by_cases hpq : p = q
  · subst hpq
    rw [if_pos rfl]
    cases hl : w.lookup p with
    | none =>
      have ho : w.open p true < 0 := by simp [World.open, hl]
      exact (node_writes_sysfs_write_failed w p p s ho).1
    | some n =>
      by_cases hw : n.wr_ok = true
      · simp only [hw, if_true]
        exact (node_writes_sysfs_write_opened w p n s hl hw).1
      · have ho : w.open p true < 0 := by simp [World.open, hl, hw]
        simp only [hw]
        exact (node_writes_sysfs_write_failed w p p s ho).1
  · rw [if_neg hpq]
    exact node_writes_sysfs_write_ne w q p s hpq

/-- Every path through `samsung_power_set_interactive` ends with the
`sysfs_write` call on the io-busy path, and nothing before it touches that
path. -/
theorem set_interactive_rest_shape (w : World) (st : State) (on_ : Int)
    (b : Nat × List Event) (hd : paths_distinct st) (hq : quiet b.2) :
    sysfs_write w (some st.IO_IS_BUSY_PATH) (on_text on_) <:+
      (set_interactive_rest w st on_ b).2 ∧
    writes_to (some st.IO_IS_BUSY_PATH) (set_interactive_rest w st on_ b).2 = [on_text on_] ∧
    node_writes (some st.IO_IS_BUSY_PATH) (set_interactive_rest w st on_ b).2 =
      node_writes (some st.IO_IS_BUSY_PATH)
        (sysfs_write w (some st.IO_IS_BUSY_PATH) (on_text on_)) := by
  obtain ⟨h1, h2, _⟩ := hd
  have t : (if on_ ≠ 0 then "1".toList else "0".toList) = on_text on_ := rfl
  have qb1 := writes_to_of_sysfs_writes_nil (some st.IO_IS_BUSY_PATH) b.2 hq.1
  have qb2 := node_writes_of_all_writes_nil (some st.IO_IS_BUSY_PATH) b.2 hq.2
  have qr1 := fun (p : Option String) (s : List Char) (k : Nat) =>
    writes_to_of_sysfs_writes_nil (some st.IO_IS_BUSY_PATH) _ (quiet_sysfs_read w p s k).1
  have qr2 := fun (p : Option String) (s : List Char) (k : Nat) =>
    node_writes_of_all_writes_nil (some st.IO_IS_BUSY_PATH) _ (quiet_sysfs_read w p s k).2
  have ne1 := node_writes_sysfs_write_ne w (some st.IO_IS_BUSY_PATH)
    st.pwr.touchscreen_power_path
  have ne2 := node_writes_sysfs_write_ne w (some st.IO_IS_BUSY_PATH)
    st.pwr.touchkey_power_path
  unfold set_interactive_rest
  simp only [t]
  split_ifs <;>
    exact ⟨by simp only [← List.append_assoc]; exact List.suffix_append _ _,
      by simp [writes_to_append, writes_to_sysfs_write, qb1, qr1, h1, h2, cstr_on_text],
      by simp [node_writes_append, qb2, qr2, ne1 _ h1, ne2 _ h2]⟩

theorem getLast?_of_suffix {α : Type} (t tr : List α) (x : α) (h : t <:+ tr)
    (ht : t.getLast? = some x) : tr.getLast? = some x := by
  obtain ⟨pre, rfl⟩ := h
  rw [List.getLast?_append, ht]
  rfl

theorem set_interactive_rest_io_busy (w : World) (st : State) (on_ : Int)
    (b : Nat × List Event) (hd : paths_distinct st) (hq : quiet b.2) :
    writes_to (some st.IO_IS_BUSY_PATH) (set_interactive_rest w st on_ b).2 = [on_text on_] ∧
    (sysfs_writes (set_interactive_rest w st on_ b).2).getLast? =
      some (some st.IO_IS_BUSY_PATH, on_text on_) ∧
    (∀ n, w.lookup (some st.IO_IS_BUSY_PATH) = some n → n.wr_ok = true →
      node_writes (some st.IO_IS_BUSY_PATH) (set_interactive_rest w st on_ b).2 =
        [(on_text on_, n.write_ok)] ∧
      (all_writes (set_interactive_rest w st on_ b).2).getLast? =
        some (some st.IO_IS_BUSY_PATH, on_text on_, n.write_ok)) ∧
    (w.open (some st.IO_IS_BUSY_PATH) true < 0 →
      node_writes (some st.IO_IS_BUSY_PATH) (set_interactive_rest w st on_ b).2 = [] ∧
      (set_interactive_rest w st on_ b).2.getLast? =
        some (Event.aloge "Error opening %s: %s\n" (some st.IO_IS_BUSY_PATH))) := by
  obtain ⟨⟨pre, hpre⟩, h2, h3⟩ := set_interactive_rest_shape w st on_ b hd hq
  refine ⟨h2, ?_, ?_, ?_⟩
  · rw [← hpre, sysfs_writes_append, sysfs_writes_sysfs_write, cstr_on_text]
    exact List.getLast?_concat _
  · intro n hl hw
    obtain ⟨e1, e2⟩ := node_writes_sysfs_write_opened w _ n (on_text on_) hl hw
    rw [cstr_on_text] at e1 e2
    constructor
    · rw [h3, e1]
    · rw [← hpre, all_writes_append, e2]
      exact List.getLast?_concat _
  · intro ho
    constructor
    · rw [h3]
      exact (node_writes_sysfs_write_failed w _ _ _ ho).1
    · apply getLast?_of_suffix _ _ _ ⟨pre, hpre⟩
      rw [sysfs_write_failed w _ _ ho]
      rfl

/-- Whenever `on` is non-zero or the brightness read stays inside its array,
`samsung_power_set_interactive` has a result: that of the statements after the
brightness check, for a brightness result `b` that wrote nothing. -/
theorem set_interactive_defined (w : World) (st : State) (on_ : Int)
    (h : on_ ≠ 0 ∨ brightness_fits w) :
    ∃ b, samsung_power_set_interactive w st on_ = some (set_interactive_rest w st on_ b) ∧
      quiet b.2 := by
  unfold samsung_power_set_interactive
  by_cases hon : on_ = 0
  · rw [if_pos hon]
    have hf : brightness_fits w := by
      rcases h with h | h
      · exact absurd hon h
      · exact h
    cases hb : read_panel_brightness w with
    | none =>
      exfalso
      unfold read_panel_brightness at hb
      unfold brightness_fits at hf
      simp only at hb
      rw [if_neg (by omega)] at hb
      split at hb <;> cases hb
    | some b => exact ⟨b, rfl, quiet_read_panel_brightness w b hb⟩
  · rw [if_neg hon]
    exact ⟨(0, []), rfl, rfl, rfl⟩

/-- C3, counterexample: with the governor "ondemand" no governor family is
recognised, the io-busy path stays empty, and
`samsung_power_set_interactive(1)` makes no `write(2)` at all: its
`sysfs_write` call on the io-busy path ends with the failed `open` of the
empty path. -/
theorem C3_counterexample :
    (reach (governor_world "ondemand\n") []).IO_IS_BUSY_PATH = "" ∧
    (samsung_power_set_interactive (governor_world "ondemand\n")
      (reach (governor_world "ondemand\n") []) 1).map (fun r => all_writes r.2) = some [] ∧
    (samsung_power_set_interactive (governor_world "ondemand\n")
      (reach (governor_world "ondemand\n") []) 1).map (fun r => r.2.getLast?) =
        some (some (Event.aloge "Error opening %s: %s\n" (some ""))) := by
  decide

/-- C3, amended: in every state the HAL reaches after `init`, in every world
and for every value of `on` (for `on` zero, as long as the brightness read
stays inside its 4-byte array), `samsung_power_set_interactive(on)` returns
and makes exactly one `sysfs_write` call on the io-busy path, with the text
"1" when `on` is non-zero and "0" when it is zero, as the last `sysfs_write`
call of the transition.  When the io-busy path names a node that opens for
writing, that call makes the one `write(2)` on the node, with that text, and
it is the last `write(2)` of the transition.  When the path does not open (it
is empty when no governor family was recognised), nothing is written to it
and the transition ends with the report of the failed `open`. -/
theorem C3_io_busy_write (boot : World) (calls : List (Call × World)) (w : World) (on_ : Int)
    (h : on_ ≠ 0 ∨ brightness_fits w) :
    ∃ r, samsung_power_set_interactive w (reach boot calls) on_ = some r ∧
      writes_to (some (reach boot calls).IO_IS_BUSY_PATH) r.2 = [on_text on_] ∧
      (sysfs_writes r.2).getLast? =
        some (some (reach boot calls).IO_IS_BUSY_PATH, on_text on_) ∧
      (∀ n, w.lookup (some (reach boot calls).IO_IS_BUSY_PATH) = some n → n.wr_ok = true →
        node_writes (some (reach boot calls).IO_IS_BUSY_PATH) r.2 =
          [(on_text on_, n.write_ok)] ∧
        (all_writes r.2).getLast? =
          some (some (reach boot calls).IO_IS_BUSY_PATH, on_text on_, n.write_ok)) ∧
      (w.open (some (reach boot calls).IO_IS_BUSY_PATH) true < 0 →
        node_writes (some (reach boot calls).IO_IS_BUSY_PATH) r.2 = [] ∧
        r.2.getLast? =
          some (Event.aloge "Error opening %s: %s\n"
            (some (reach boot calls).IO_IS_BUSY_PATH))) := by
  obtain ⟨b, hb, hq⟩ := set_interactive_defined w (reach boot calls) on_ h
  exact ⟨_, hb, set_interactive_rest_io_busy w (reach boot calls) on_ b
    (reach_paths_distinct boot calls) hq⟩


theorem touchkey_node_first (d : List Char) :
    (store (fit 2 []) (d.take 1 ++ [NUL])).getD 0 NUL = d.headD NUL := by
  cases d with
  | nil => rfl
  | cons a t => rfl

theorem char_sub_eq_zero_iff (a b : Char) :
    ((a.toNat : Int) - (b.toNat : Int) = 0) ↔ a = b := by
  constructor
  · intro h
    by_contra hne
    exact char_sub_ne_zero a b hne h
  · intro h
    rw [h]
    omega

theorem mem_sysfs_write_failed (w : World) (p : Option String) (s : List Char)
    (h : w.open p true < 0) :
    Event.aloge "Error opening %s: %s\n" p ∈ sysfs_write w p s := by
  rw [sysfs_write_failed w p s h]
  simp

theorem set_interactive_rest_off (w : World) (st : State) (p : String) (n : Node)
    (d : List Char) (b : Nat × List Event)
    (hd : paths_distinct st) (hq : quiet b.2) (hb0 : b.1 = 0)
    (hp : st.pwr.touchkey_power_path = some p) (hnode : w.lookup (some p) = some n)
    (hrd : n.rd_ok = true) (hdata : n.data = some d) :
    (d.head? = some '0' →
      (set_interactive_rest w st 0 b).1.pwr.touchkey_blocked = true ∧
      writes_to (some p) (set_interactive_rest w st 0 b).2 = [] ∧
      node_writes (some p) (set_interactive_rest w st 0 b).2 = []) ∧
    (d.head? ≠ some '0' →
      (set_interactive_rest w st 0 b).1.pwr.touchkey_blocked = false ∧
      writes_to (some p) (set_interactive_rest w st 0 b).2 = ["0".toList] ∧
      (n.wr_ok = true →
        node_writes (some p) (set_interactive_rest w st 0 b).2 = [("0".toList, n.write_ok)]) ∧
      (n.wr_ok = false →
        node_writes (some p) (set_interactive_rest w st 0 b).2 = [] ∧
        Event.aloge "Error opening %s: %s\n" (some p) ∈ (set_interactive_rest w st 0 b).2)) := by
  obtain ⟨_, h2, h3⟩ := hd
  have hts : st.pwr.touchscreen_power_path ≠ some p := h3 p hp
  have hio : ¬ st.IO_IS_BUSY_PATH = p := fun e => h2 (by rw [hp, e])
  have hstat : w.stat (some p) = 0 := by simp [World.stat, hnode]
  have hopen : w.open (some p) false = (w.fd : Int) := by simp [World.open, hnode, hrd]
  have hread : sysfs_read w (some p) (fit 2 []) 2 =
      (0, store (fit 2 []) (d.take 1 ++ [NUL]), [Event.open (some p) false (w.fd : Int)]) := by
    unfold sysfs_read
    rw [hopen, if_neg (by omega), hnode]
    simp [hdata]
  have qb1 := writes_to_of_sysfs_writes_nil (some p) b.2 hq.1
  have qb2 := node_writes_of_all_writes_nil (some p) b.2 hq.2
  unfold set_interactive_rest
  simp only [hb0, hp, hstat, hread, touchkey_node_first, char_sub_eq_zero_iff]
  constructor
  · intro h0
    have hc : d.head?.getD NUL = '0' := by
      rw [h0]
      rfl
    simp [hc, writes_to_append, writes_to_sysfs_write, node_writes_append,
      node_writes_sysfs_write, qb1, qb2, writes_to, node_writes, hts, hio]
  · intro h0
    have hc : ¬ d.head?.getD NUL = '0' := by
      cases hh : d.head? with
      | none => decide
      | some a =>
        rw [hh] at h0
        simpa using h0
    have hz : cstr ['0'] = ['0'] := by decide
    refine ⟨?_, ?_, ?_, ?_⟩
    · simp [hc]
    · simp [hc, writes_to_append, writes_to_sysfs_write, qb1, writes_to, hts, hio, hz]
    · intro hw
      simp [hc, node_writes_append, node_writes_sysfs_write, qb2, node_writes, hts, hio,
        hnode, hw, hz]
    · intro hw
      constructor
      · simp [hc, node_writes_append, node_writes_sysfs_write, qb2, node_writes, hts, hio,
          hnode, hw]
      · have ho : w.open (some p) true < 0 := by simp [World.open, hnode, hw]
        have hm := mem_sysfs_write_failed w (some p) ['0'] ho
        simp [hc, hm]

/-- C4: in every state the HAL reaches after `init`, when the panel brightness
magnitude is 0 and the touch-key enable node exists and can be read,
`samsung_power_set_interactive(0)` returns; it sets `touchkey_blocked` to true
and makes no `sysfs_write` call and no `write(2)` on the touch-key node when
the node reads "0" (its first byte is '0'); it sets `touchkey_blocked` to
false and makes one `sysfs_write` call with "0" on the touch-key path when the
node reads "1" (its first byte is '1', or anything but '0'): on a node that
opens for writing this is exactly one `write(2)` of "0" on the node, on a node
that does not, the failed `open` is reported and nothing is written. -/
theorem C4_touchkey_block (boot : World) (calls : List (Call × World)) (w : World)
    (p : String) (n : Node) (d : List Char) (b : Nat × List Event)
    (hb : read_panel_brightness w = some b) (hb0 : b.1 = 0)
    (hp : (reach boot calls).pwr.touchkey_power_path = some p)
    (hnode : w.lookup (some p) = some n) (hrd : n.rd_ok = true) (hdata : n.data = some d) :
    ∃ r, samsung_power_set_interactive w (reach boot calls) 0 = some r ∧
      (d.head? = some '0' →
        r.1.pwr.touchkey_blocked = true ∧ writes_to (some p) r.2 = [] ∧
        node_writes (some p) r.2 = []) ∧
      (d.head? = some '1' →
        r.1.pwr.touchkey_blocked = false ∧ writes_to (some p) r.2 = ["0".toList] ∧
        (n.wr_ok = true → node_writes (some p) r.2 = [("0".toList, n.write_ok)]) ∧
        (n.wr_ok = false →
          node_writes (some p) r.2 = [] ∧
          Event.aloge "Error opening %s: %s\n" (some p) ∈ r.2)) ∧
      (d.head? ≠ some '0' →
        r.1.pwr.touchkey_blocked = false ∧ writes_to (some p) r.2 = ["0".toList] ∧
        (n.wr_ok = true → node_writes (some p) r.2 = [("0".toList, n.write_ok)]) ∧
        (n.wr_ok = false →
          node_writes (some p) r.2 = [] ∧
          Event.aloge "Error opening %s: %s\n" (some p) ∈ r.2)) := by
  have h := set_interactive_rest_off w (reach boot calls) p n d b
    (reach_paths_distinct boot calls) (quiet_read_panel_brightness w b hb) hb0 hp hnode hrd
    hdata
  refine ⟨set_interactive_rest w (reach boot calls) 0 b, ?_, h.1, ?_, h.2⟩
  · unfold samsung_power_set_interactive
    rw [if_pos rfl, hb]
  · intro h1
    apply h.2
    rw [h1]
    decide

theorem set_interactive_rest_on (w : World) (st : State) (on_ : Int) (hon : on_ ≠ 0)
    (hd : paths_distinct st) :
    (set_interactive_rest w st on_ (0, [])).1.pwr.touchkey_blocked = st.pwr.touchkey_blocked ∧
    ∀ p, st.pwr.touchkey_power_path = some p →
      (st.pwr.touchkey_blocked = true →
        writes_to (some p) (set_interactive_rest w st on_ (0, [])).2 = [] ∧
        node_writes (some p) (set_interactive_rest w st on_ (0, [])).2 = []) ∧
      (w.stat (some p) < 0 →
        writes_to (some p) (set_interactive_rest w st on_ (0, [])).2 = [] ∧
        node_writes (some p) (set_interactive_rest w st on_ (0, [])).2 = []) ∧
      (st.pwr.touchkey_blocked = false → ∀ n, w.lookup (some p) = some n →
        writes_to (some p) (set_interactive_rest w st on_ (0, [])).2 = ["1".toList] ∧
        (n.wr_ok = true →
          node_writes (some p) (set_interactive_rest w st on_ (0, [])).2 =
            [("1".toList, n.write_ok)]) ∧
        (n.wr_ok = false →
          node_writes (some p) (set_interactive_rest w st on_ (0, [])).2 = [] ∧
          Event.aloge "Error opening %s: %s\n" (some p) ∈
            (set_interactive_rest w st on_ (0, [])).2)) := by
  obtain ⟨_, h2, h3⟩ := hd
  constructor
  · unfold set_interactive_rest
    simp only [hon]
    split_ifs <;> simp_all
  · intro p hp
    have hts : st.pwr.touchscreen_power_path ≠ some p := h3 p hp
    have hio : ¬ st.IO_IS_BUSY_PATH = p := fun e => h2 (by rw [hp, e])
    have ho1 : cstr ['1'] = ['1'] := by decide
    unfold set_interactive_rest
    simp only [hon, hp]
    refine ⟨?_, ?_, ?_⟩
    · intro hbl
      split_ifs <;>
        simp_all [writes_to_append, writes_to_sysfs_write, node_writes_append,
          node_writes_sysfs_write, writes_to, node_writes]
    · intro hst
      simp [hst, writes_to_append, writes_to_sysfs_write, node_writes_append,
        node_writes_sysfs_write, writes_to, node_writes, hts, hio]
    · intro hbl n hnode
      have hst : ¬ w.stat (some p) < 0 := by simp [World.stat, hnode]
      refine ⟨?_, ?_, ?_⟩
      · simp [hst, hbl, writes_to_append, writes_to_sysfs_write, writes_to, hts, hio, ho1]
      · intro hw
        simp [hst, hbl, node_writes_append, node_writes_sysfs_write, node_writes, hts, hio,
          hnode, hw, ho1]
      · intro hw
        constructor
        · simp [hst, hbl, node_writes_append, node_writes_sysfs_write, node_writes, hts, hio,
            hnode, hw]
        · have ho : w.open (some p) true < 0 := by simp [World.open, hnode, hw]
          have hm := mem_sysfs_write_failed w (some p) ['1'] ho
          simp [hst, hbl, hm]

/-- C5, counterexample: after `init` in a world where the input directory 1
is the touch-key device and has no `enabled` node, `touchkey_blocked` is
false, and `samsung_power_set_interactive(1)` makes no `sysfs_write` call on
the touch-key path, because `stat` of that path fails. -/
theorem C5_counterexample :
    (reach touchkey_world []).pwr.touchkey_power_path =
      some "/sys/class/input/input1/enabled" ∧
    (reach touchkey_world []).pwr.touchkey_blocked = false ∧
    (samsung_power_set_interactive touchkey_world (reach touchkey_world []) 1).map
      (fun r => writes_to (some "/sys/class/input/input1/enabled") r.2) = some [] := by
  decide

/-- C5, amended: in every state the HAL reaches after `init`,
`samsung_power_set_interactive(on)` with `on` non-zero returns and leaves
`touchkey_blocked` unchanged.  It makes no `sysfs_write` call and no
`write(2)` on the touch-key node when `touchkey_blocked` is true or when
`stat` of the touch-key path fails.  When `touchkey_blocked` is false and the
node exists (`stat` succeeds), it makes one `sysfs_write` call with "1" on the
touch-key path: on a node that opens for writing this is exactly one
`write(2)` of "1" on the node, on a node that does not, the failed `open` is
reported and nothing is written. -/
theorem C5_touchkey_resume (boot : World) (calls : List (Call × World)) (w : World)
    (on_ : Int) (hon : on_ ≠ 0) :
    ∃ r, samsung_power_set_interactive w (reach boot calls) on_ = some r ∧
      r.1.pwr.touchkey_blocked = (reach boot calls).pwr.touchkey_blocked ∧
      ∀ p, (reach boot calls).pwr.touchkey_power_path = some p →
        ((reach boot calls).pwr.touchkey_blocked = true →
          writes_to (some p) r.2 = [] ∧ node_writes (some p) r.2 = []) ∧
        (w.stat (some p) < 0 →
          writes_to (some p) r.2 = [] ∧ node_writes (some p) r.2 = []) ∧
        ((reach boot calls).pwr.touchkey_blocked = false →
          ∀ n, w.lookup (some p) = some n →
            writes_to (some p) r.2 = ["1".toList] ∧
            (n.wr_ok = true → node_writes (some p) r.2 = [("1".toList, n.write_ok)]) ∧
            (n.wr_ok = false →
              node_writes (some p) r.2 = [] ∧
              Event.aloge "Error opening %s: %s\n" (some p) ∈ r.2)) := by
  refine ⟨set_interactive_rest w (reach boot calls) on_ (0, []), ?_,
    set_interactive_rest_on w (reach boot calls) on_ hon (reach_paths_distinct boot calls)⟩
  unfold samsung_power_set_interactive
  rw [if_neg hon]


/-! ## Discovery of the touch nodes -/

theorem cstr_take_eq_iff (lit x : List Char) (hl : ∀ c ∈ lit, c ≠ NUL) :
    (cstr x).take lit.length = lit ↔ x.take lit.length = lit := by
  induction lit generalizing x with
  | nil => simp
  | cons c l ih =>
    have hc : c ≠ NUL := hl c (List.mem_cons_self _ _)
    have hl2 : ∀ y ∈ l, y ≠ NUL := fun y hy => hl y (List.mem_cons_of_mem _ hy)
    cases x with
    | nil => simp [cstr_nil]
    | cons a as =>
      by_cases ha : a = NUL
      · subst ha
        simp only [cstr_cons, if_true, List.take_nil, List.length_cons, List.take_succ_cons,
          List.cons.injEq]
        constructor
        · intro e
          cases e
        · intro e
          exact absurd e.1.symm hc
      · simp only [cstr_cons, if_neg ha, List.length_cons, List.take_succ_cons, List.cons.injEq]
        rw [ih as hl2]

/-- After a successful read of a device name into a 20-byte array, `strncmp`
with an identifier returns zero exactly when the name starts with it. -/
theorem name_match_iff (fc name lit : List Char) (hlen : fc.length = 20)
    (hl : ∀ c ∈ lit, c ≠ NUL) (hn : lit.length ≤ 19) :
    strncmp (store fc (name.take 19 ++ [NUL])) lit lit.length = 0 ↔
      name.take lit.length = lit := by
  have hlt : (name.take 19).length < fc.length := by
    rw [hlen, List.length_take]
    omega
  rw [strncmp_eq_zero_iff lit _ hl, cstr_store _ _ hlt, cstr_take_eq_iff lit _ hl,
    List.take_take, Nat.min_eq_left hn]

theorem malloc_ok (heap : List Bool) (h : ∀ b ∈ heap, b = true) :
    (malloc heap).1 = true ∧ ∀ b ∈ (malloc heap).2, b = true := by
  cases heap with
  | nil => exact ⟨rfl, fun b hb => by cases hb⟩
  | cons a t =>
    exact ⟨h a (List.mem_cons_self _ _), fun b hb => h b (List.mem_cons_of_mem _ hb)⟩

theorem name_path_ne_empty : ∀ i : Fin 20, input_dir i ++ "/" ++ "name" ≠ "" := by
  decide

theorem found_touchkey_ok (e : String) (sc : Scan) (h : (malloc sc.heap).1 = true) :
    found_touchkey e sc =
      { sc with pwr := { sc.pwr with touchkey_power_path := some e }
                heap := (malloc sc.heap).2 } := by
  unfold found_touchkey
  rw [if_pos h]

theorem found_touchscreen_ok (e : String) (sc : Scan) (h : (malloc sc.heap).1 = true) :
    found_touchscreen e sc =
      { sc with pwr := { sc.pwr with touchscreen_power_path := some e }
                heap := (malloc sc.heap).2 } := by
  unfold found_touchscreen
  rw [if_pos h]

theorem find_input_nodes_entry_named (w : World) (k : Nat) (hk : k < 20) (name : List Char)
    (n : Node) (hnode : w.node (input_dir k ++ "/" ++ "name") = some n)
    (hrd : n.rd_ok = true) (hdata : n.data = some name)
    (pwr0 : samsung_power_module) (seen : Prop) (d_name : String) (sc : Scan)
    (hname : strncmp "name".toList d_name.toList 5 = 0)
    (h : scan_named k name pwr0 seen sc) :
    scan_named k name pwr0 True (find_input_nodes_entry w (input_dir k) d_name sc) := by
  obtain ⟨hret, hheap, hlen, hk1, hk2, hs1, hs2⟩ := h
  obtain ⟨m1, hheap1⟩ := malloc_ok sc.heap hheap
  obtain ⟨m2, hheap2⟩ := malloc_ok _ hheap1
  obtain ⟨m3, hheap3⟩ := malloc_ok _ hheap2
  obtain ⟨m4, hheap4⟩ := malloc_ok _ hheap3
  have hread := sysfs_read_ok w (input_dir k ++ "/" ++ "name") n name sc.file_content 20
    (name_path_ne_empty ⟨k, hk⟩) hnode hrd hdata
  have hkey := name_match_iff sc.file_content name "sec_touchkey".toList hlen (by decide)
    (by decide)
  have hscr := name_match_iff sc.file_content name "sec_touchscreen".toList hlen (by decide)
    (by decide)
  change strncmp _ _ 12 = 0 ↔ is_touchkey name at hkey
  change strncmp _ _ 15 = 0 ↔ is_touchscreen name at hscr
  have he : input_dir k ++ "/" ++ "enabled" = enabled_path k := rfl
  have hm : ¬ ((malloc sc.heap).1 = false ∨ (malloc (malloc sc.heap).2).1 = false) := by
    simp [m1, m2]
  unfold find_input_nodes_entry
  rw [if_pos hname, if_neg hm]
  simp only [hread, he, Nat.add_one_sub_one, Nat.reduceSub]
  by_cases K : is_touchkey name
  · rw [if_pos (hkey.2 K), found_touchkey_ok _ _ m3]
    simp only [hret, Bool.false_eq_true, if_false]
    by_cases S : is_touchscreen name
    · rw [if_pos (hscr.2 S), found_touchscreen_ok _ _ m4]
      exact ⟨rfl, hheap4, by simp [store_length, hlen], fun _ => rfl,
        fun c => absurd ⟨trivial, K⟩ c, fun _ => rfl, fun c => absurd ⟨trivial, S⟩ c⟩
    · rw [if_neg (fun e => S (hscr.1 e))]
      exact ⟨rfl, hheap3, by simp [store_length, hlen], fun _ => rfl,
        fun c => absurd ⟨trivial, K⟩ c, fun c => absurd c.2 S,
        fun _ => hs2 (fun c => S c.2)⟩
  · rw [if_neg (fun e => K (hkey.1 e))]
    simp only [hret, Bool.false_eq_true, if_false]
    by_cases S : is_touchscreen name
    · rw [if_pos (hscr.2 S), found_touchscreen_ok _ _ m3]
      exact ⟨rfl, hheap3, by simp [store_length, hlen], fun c => absurd c.2 K,
        fun _ => hk2 (fun c => K c.2), fun _ => rfl, fun c => absurd ⟨trivial, S⟩ c⟩
    · rw [if_neg (fun e => S (hscr.1 e))]
      exact ⟨rfl, hheap2, by simp [store_length, hlen], fun c => absurd c.2 K,
        fun _ => hk2 (fun c => K c.2), fun c => absurd c.2 S,
        fun _ => hs2 (fun c => S c.2)⟩

theorem scan_named_congr (k : Nat) (name : List Char) (pwr0 : samsung_power_module)
    (P Q : Prop) (sc : Scan) (hPQ : P ↔ Q) (h : scan_named k name pwr0 P sc) :
    scan_named k name pwr0 Q sc := by
  obtain ⟨h1, h2, h3, h4, h5, h6, h7⟩ := h
  exact ⟨h1, h2, h3, fun c => h4 ⟨hPQ.2 c.1, c.2⟩, fun c => h5 (fun d => c ⟨hPQ.1 d.1, d.2⟩),
    fun c => h6 ⟨hPQ.2 c.1, c.2⟩, fun c => h7 (fun d => c ⟨hPQ.1 d.1, d.2⟩)⟩

theorem find_input_nodes_loop_named (w : World) (k : Nat) (hk : k < 20) (name : List Char)
    (n : Node) (hnode : w.node (input_dir k ++ "/" ++ "name") = some n)
    (hrd : n.rd_ok = true) (hdata : n.data = some name)
    (pwr0 : samsung_power_module) (entries : List String) :
    ∀ (seen : Prop) (sc : Scan), scan_named k name pwr0 seen sc →
      scan_named k name pwr0
        (seen ∨ ∃ d ∈ entries, strncmp "name".toList d.toList 5 = 0)
        (find_input_nodes_loop w (input_dir k) entries sc) := by
  induction entries with
  | nil =>
    intro seen sc h
    exact scan_named_congr k name pwr0 _ _ sc (by simp) h
  | cons d rest ih =>
    intro seen sc h
    unfold find_input_nodes_loop
    by_cases hname : strncmp "name".toList d.toList 5 = 0
    · have h1 := find_input_nodes_entry_named w k hk name n hnode hrd hdata pwr0 seen d sc
        hname h
      rw [if_neg (by rw [h1.1]; decide)]
      refine scan_named_congr k name pwr0 _ _ _ ?_ (ih True _ h1)
      constructor
      · intro _
        exact Or.inr ⟨d, List.mem_cons_self _ _, hname⟩
      · intro _
        exact Or.inl trivial
    · have e : find_input_nodes_entry w (input_dir k) d sc = sc := by
        unfold find_input_nodes_entry
        rw [if_neg hname]
      rw [e, if_neg (by rw [h.1]; decide)]
      refine scan_named_congr k name pwr0 _ _ _ ?_ (ih seen sc h)
      constructor
      · rintro (c | ⟨x, hx, hm⟩)
        · exact Or.inl c
        · exact Or.inr ⟨x, List.mem_cons_of_mem _ hx, hm⟩
      · rintro (c | ⟨x, hx, hm⟩)
        · exact Or.inl c
        · rcases List.mem_cons.1 hx with hx | hx
          · subst hx
            exact absurd hm hname
          · exact Or.inr ⟨x, hx, hm⟩

theorem fit_length (n : Nat) (junk : List Char) : (fit n junk).length = n := by
  unfold fit
  simp

/-- The scan of a directory that has a readable device name, when no
allocation fails: each touch path becomes the `enabled` path of the directory
when the name starts with its identifier, and keeps its value otherwise. -/
theorem find_input_nodes_named (w : World) (k : Nat) (hk : k < 20) (name : List Char)
    (entries : List String) (hdir : w.dir (input_dir k) = some entries)
    (hmem : "name" ∈ entries)
    (n : Node) (hnode : w.node (input_dir k ++ "/" ++ "name") = some n)
    (hrd : n.rd_ok = true) (hdata : n.data = some name)
    (pwr : samsung_power_module) (heap : List Bool) (hheap : ∀ b ∈ heap, b = true) :
    (find_input_nodes w pwr heap (input_dir k)).1.touchkey_power_path =
      (if is_touchkey name then some (enabled_path k) else pwr.touchkey_power_path) ∧
    (find_input_nodes w pwr heap (input_dir k)).1.touchscreen_power_path =
      (if is_touchscreen name then some (enabled_path k) else pwr.touchscreen_power_path) ∧
    ∀ b ∈ (find_input_nodes w pwr heap (input_dir k)).2.1, b = true := by
  have h := find_input_nodes_loop_named w k hk name n hnode hrd hdata pwr entries False
    { pwr := pwr, file_content := fit 20 (w.stack_file_content (input_dir k)), heap := heap,
      trace := [], returned := false }
    ⟨rfl, hheap, fit_length _ _, fun c => absurd c.1 id, fun _ => rfl, fun c => absurd c.1 id,
      fun _ => rfl⟩
  have hseen : False ∨ ∃ d ∈ entries, strncmp "name".toList d.toList 5 = 0 :=
    Or.inr ⟨"name", hmem, by decide⟩
  obtain ⟨_, h2, _, h4, h5, h6, h7⟩ := h
  unfold find_input_nodes
  rw [hdir]
  refine ⟨?_, ?_, h2⟩
  · by_cases K : is_touchkey name
    · rw [if_pos K]
      exact h4 ⟨hseen, K⟩
    · rw [if_neg K]
      exact h5 (fun c => K c.2)
  · by_cases S : is_touchscreen name
    · rw [if_pos S]
      exact h6 ⟨hseen, S⟩
    · rw [if_neg S]
      exact h7 (fun c => S c.2)

/-- The `for` loop over the directories `a`, ..., `a + n - 1`, all with a
readable device name and without allocation failure: a touch path ends as the
`enabled` path of the highest directory whose name starts with the
identifier, and keeps its value when no name does. -/
theorem init_touch_loop_named (w : World) (names : Nat → List Char)
    (hw : names_assigned w names) (n : Nat) :
    ∀ (a : Nat) (pwr : samsung_power_module) (heap : List Bool), a + n ≤ 20 →
      (∀ b ∈ heap, b = true) →
      (∀ i, a ≤ i → i < a + n → is_touchkey (names i) →
        (∀ j, i < j → j < a + n → ¬ is_touchkey (names j)) →
        (init_touch_loop w (List.range' a n) pwr heap).1.touchkey_power_path =
          some (enabled_path i)) ∧
      ((∀ j, a ≤ j → j < a + n → ¬ is_touchkey (names j)) →
        (init_touch_loop w (List.range' a n) pwr heap).1.touchkey_power_path =
          pwr.touchkey_power_path) ∧
      (∀ i, a ≤ i → i < a + n → is_touchscreen (names i) →
        (∀ j, i < j → j < a + n → ¬ is_touchscreen (names j)) →
        (init_touch_loop w (List.range' a n) pwr heap).1.touchscreen_power_path =
          some (enabled_path i)) ∧
      ((∀ j, a ≤ j → j < a + n → ¬ is_touchscreen (names j)) →
        (init_touch_loop w (List.range' a n) pwr heap).1.touchscreen_power_path =
          pwr.touchscreen_power_path) := by
  induction n with
  | zero =>
    intro a pwr heap _ _
    refine ⟨?_, fun _ => rfl, ?_, fun _ => rfl⟩
    · intro i h1 h2
      omega
    · intro i h1 h2
      omega
  | succ n ih =>
    intro a pwr heap hle hheap
    obtain ⟨⟨entries, hdir, hmem⟩, nd, hnode, hrd, hdata⟩ := hw a (by omega)
    obtain ⟨f1, f2, f3⟩ := find_input_nodes_named w a (by omega) (names a) entries hdir hmem
      nd hnode hrd hdata pwr heap hheap
    obtain ⟨i1, i2, i3, i4⟩ := ih (a + 1) (find_input_nodes w pwr heap (input_dir a)).1
      (find_input_nodes w pwr heap (input_dir a)).2.1 (by omega) f3
    rw [List.range'_succ]
    simp only [init_touch_loop]
    refine ⟨?_, ?_, ?_, ?_⟩
    · intro i hai hin hK hlast
      by_cases hia : i = a
      · subst hia
        rw [i2 (fun j h1 h2 => hlast j (by omega) (by omega)), f1, if_pos hK]
      · exact i1 i (by omega) (by omega) hK (fun j h1 h2 => hlast j h1 (by omega))
    · intro hnone
      rw [i2 (fun j h1 h2 => hnone j (by omega) (by omega)), f1,
        if_neg (hnone a (le_refl _) (by omega))]
    · intro i hai hin hS hlast
      by_cases hia : i = a
      · subst hia
        rw [i4 (fun j h1 h2 => hlast j (by omega) (by omega)), f2, if_pos hS]
      · exact i3 i (by omega) (by omega) hS (fun j h1 h2 => hlast j h1 (by omega))
    · intro hnone
      rw [i4 (fun j h1 h2 => hnone j (by omega) (by omega)), f2,
        if_neg (hnone a (le_refl _) (by omega))]

/-- C7, counterexample: the input directories 0 and 1 both hold a device
named "sec_touchkey"; `init_touch_input_power_path` leaves
`touchkey_power_path` at the `enabled` path of directory 1, not of the
lowest-indexed matching directory 0. -/
theorem C7_counterexample :
    is_touchkey (two_touchkeys_names 0) ∧ is_touchkey (two_touchkeys_names 1) ∧
    (init_touch_input_power_path two_touchkeys_world initial_module).1.touchkey_power_path =
      some "/sys/class/input/input1/enabled" ∧
    (init_touch_input_power_path two_touchkeys_world initial_module).1.touchkey_power_path ≠
      some (enabled_path 0) := by
  decide

/-- C7, amended: for every assignment of device names to the directories
`/sys/class/input/input0` .. `input19`, scanned in increasing index order
without allocation failure, `init_touch_input_power_path` leaves
`touchkey_power_path` (respectively `touchscreen_power_path`) equal to the
`enabled` path of the highest-indexed directory whose name starts with
"sec_touchkey" (respectively "sec_touchscreen"): every later match replaces
the earlier one. -/
theorem C7_last_match_kept (w : World) (names : Nat → List Char)
    (pwr : samsung_power_module) (hw : names_assigned w names)
    (hheap : ∀ b ∈ w.heap, b = true) :
    (∀ i, i < 20 → is_touchkey (names i) →
      (∀ j, i < j → j < 20 → ¬ is_touchkey (names j)) →
      (init_touch_input_power_path w pwr).1.touchkey_power_path = some (enabled_path i)) ∧
    (∀ i, i < 20 → is_touchscreen (names i) →
      (∀ j, i < j → j < 20 → ¬ is_touchscreen (names j)) →
      (init_touch_input_power_path w pwr).1.touchscreen_power_path =
        some (enabled_path i)) := by
  obtain ⟨h1, _, h3, _⟩ := init_touch_loop_named w names hw 20 0 pwr w.heap (by omega) hheap
  unfold init_touch_input_power_path
  rw [List.range_eq_range']
  constructor
  · intro i hi hK hlast
    exact h1 i (Nat.zero_le _) (by omega) hK (fun j h1 h2 => hlast j h1 (by omega))
  · intro i hi hS hlast
    exact h3 i (Nat.zero_le _) (by omega) hS (fun j h1 h2 => hlast j h1 (by omega))

theorem two_touchkeys_assigned : names_assigned two_touchkeys_world two_touchkeys_names := by
  intro i hi
  have h : ∀ i : Fin 20,
      (two_touchkeys_world.dir (input_dir i) = some [".", "..", "name", "enabled"]) ∧
      two_touchkeys_world.node (input_dir i ++ "/" ++ "name") =
        some { rd_ok := true, wr_ok := true, data := some (two_touchkeys_names i),
               write_ok := true } := by
    intro i
    constructor
    · rfl
    · fin_cases i <;> rfl
  obtain ⟨h1, h2⟩ := h ⟨i, hi⟩
  exact ⟨⟨_, h1, by decide⟩, _, h2, rfl, rfl⟩

/-- Witness of C7 (amended): with a touch-key device in the directories 0 and
1, the path of directory 1 is kept. -/
theorem C7_last_match_kept_witness :
    (init_touch_input_power_path two_touchkeys_world initial_module).1.touchkey_power_path =
      some (enabled_path 1) :=
  (C7_last_match_kept two_touchkeys_world two_touchkeys_names initial_module
    two_touchkeys_assigned (by decide)).1 1 (by decide) (by decide) (by
      intro j h1 h2
      have : ∀ j : Fin 20, 1 < j.val → ¬ is_touchkey (two_touchkeys_names j.val) := by decide
      exact this ⟨j, h2⟩ h1)


/-! ## Witnesses on a device -/

/-- Witness of C1: on the device, after `init`, PowerSave is requested while
HighPerformance is current: the cached minimum frequency is written to the
`scaling_max_freq` node. -/
theorem C1_set_power_profile_witness :
    (set_power_profile device_world (reach device_world []) PROFILE_POWER_SAVE).2 =
      [Event.sysfs_write (some SCALING_MAX_FREQ_PATH) "400000\n".toList,
       Event.open (some SCALING_MAX_FREQ_PATH) true 3,
       Event.write 3 (some SCALING_MAX_FREQ_PATH) "400000\n".toList true] := by
  have h := ((C1_set_power_profile device_world (reach device_world []) PROFILE_POWER_SAVE
    (Or.inl rfl)).2 (by decide)).2.2.1 (plain_node "1200000\n") rfl rfl
  rw [h]
  decide

/-- Witness of C3 (amended): on the device, the screen goes off with a dark
panel; "0" is written to the io-busy node. -/
theorem C3_io_busy_write_witness :
    ∃ r, samsung_power_set_interactive device_world (reach device_world []) 0 = some r ∧
      node_writes (some "/sys/devices/system/cpu/cpufreq/interactive/io_is_busy") r.2 =
        [("0".toList, true)] := by
  obtain ⟨r, h1, _, _, h4, _⟩ := C3_io_busy_write device_world [] device_world 0
    (Or.inr (by unfold brightness_fits; decide))
  have e : (reach device_world []).IO_IS_BUSY_PATH =
      "/sys/devices/system/cpu/cpufreq/interactive/io_is_busy" := by decide
  rw [e] at h4
  exact ⟨r, h1, (h4 (plain_node "0\n") rfl rfl).1⟩

/-- Witness of C4: on the device, the touch-key node reads "1". -/
theorem C4_touchkey_block_witness :
    ∃ r, samsung_power_set_interactive device_world (reach device_world []) 0 = some r ∧
      r.1.pwr.touchkey_blocked = false ∧
      node_writes (some "/sys/class/input/input1/enabled") r.2 = [("0".toList, true)] := by
  obtain ⟨r, h1, _, h3, _⟩ := C4_touchkey_block device_world [] device_world
    "/sys/class/input/input1/enabled" (plain_node "1\n") "1\n".toList
    (0, [Event.open (some PANEL_BRIGHTNESS) false 3]) (by decide) rfl (by decide) rfl rfl rfl
  obtain ⟨a, _, c, _⟩ := h3 (by decide)
  exact ⟨r, h1, a, c rfl⟩

/-- Witness of C5 (amended): on the device, `touchkey_blocked` is false and
the node exists. -/
theorem C5_touchkey_resume_witness :
    ∃ r, samsung_power_set_interactive device_world (reach device_world []) 1 = some r ∧
      node_writes (some "/sys/class/input/input1/enabled") r.2 = [("1".toList, true)] := by
  obtain ⟨r, h1, _, h3⟩ := C5_touchkey_resume device_world [] device_world 1 (by decide)
  obtain ⟨_, _, c⟩ := h3 "/sys/class/input/input1/enabled" (by decide)
  exact ⟨r, h1, (c (by decide) (plain_node "1\n") rfl).2.1 rfl⟩

/-- Witness of C10: one hint while the node is missing, two hints on the
device. -/
theorem C10_boostpulse_once_witness :
    opens_ok (run (reach device_world [])
      (interaction_hints ([(0, empty_world)] ++ [(0, device_world), (0, device_world)]))).2 ≤ 1 :=
  (C10_boostpulse_once (reach device_world []) [(0, empty_world)]
    [(0, device_world), (0, device_world)] (by decide) (by decide)).2.1

/-! ## More on the panel brightness -/

theorem brightness_loop_sum (buf : List Char) (h : buf.length = 4) :
    brightness_loop buf 4 0 0 = (buf.map digit_value).sum := by
  rcases buf with _ | ⟨b0, _ | ⟨b1, _ | ⟨b2, _ | ⟨b3, _ | ⟨b4, t⟩⟩⟩⟩⟩ <;>
    simp at h
  rw [brightness_loop_four]
  simp [List.sum_cons]
  omega

/-- With `num_bytes` the size of the array, `sysfs_read` stores inside it. -/
theorem sysfs_read_stored_le (w : World) (p : Option String) (k : Nat) (hk : 0 < k) :
    sysfs_read_stored w p k ≤ k := by
  unfold sysfs_read_stored
  split
  · omega
  · split
    · omega
    · rw [List.length_take]
      omega

theorem sysfs_read_stored_ok (w : World) (p : Option String) (n : Node) (d : List Char)
    (k : Nat) (hl : w.lookup p = some n) (hrd : n.rd_ok = true) (hdata : n.data = some d) :
    sysfs_read_stored w p k = (d.take (k - 1)).length + 1 := by
  have ho : w.open p false = (w.fd : Int) := by simp [World.open, hl, hrd]
  unfold sysfs_read_stored
  rw [ho, if_neg (by omega), hl]
  simp [hdata]

/-- When the brightness node delivers 4 bytes or more, `read_panel_brightness`
stores past its array and has no result. -/
theorem read_panel_brightness_overflow (w : World) (n : Node) (d : List Char)
    (hnode : w.node PANEL_BRIGHTNESS = some n) (hrd : n.rd_ok = true)
    (hdata : n.data = some d) (hlen : 4 ≤ d.length) :
    read_panel_brightness w = none := by
  have hl : w.lookup (some PANEL_BRIGHTNESS) = some n := by
    simp only [World.lookup]
    rw [if_neg (by decide)]
    exact hnode
  have hs : sysfs_read_stored w (some PANEL_BRIGHTNESS) 38 > 4 := by
    rw [sysfs_read_stored_ok w _ n d 38 hl hrd hdata, List.length_take]
    omega
  unfold read_panel_brightness
  simp only
  rw [if_pos hs]

/-- Whenever the brightness node can be read and delivers at most 3 bytes,
`read_panel_brightness` returns the sum of the digit values of the four bytes
its array then holds. -/
theorem read_panel_brightness_digit_sum (w : World) (n : Node) (d : List Char)
    (hnode : w.node PANEL_BRIGHTNESS = some n) (hrd : n.rd_ok = true)
    (hdata : n.data = some d) (hlen : d.length ≤ 3) :
    (read_panel_brightness w).map Prod.fst =
      some ((store (fit 4 w.stack_panel_brightness) (d ++ [NUL])).map digit_value).sum := by
  have hr := sysfs_read_ok w PANEL_BRIGHTNESS n d (fit 4 w.stack_panel_brightness) 38
    (by decide) hnode hrd hdata
  have ht : d.take 37 = d := List.take_of_length_le (by omega)
  have hl : w.lookup (some PANEL_BRIGHTNESS) = some n := by
    simp only [World.lookup]
    rw [if_neg (by decide)]
    exact hnode
  have hs : ¬ sysfs_read_stored w (some PANEL_BRIGHTNESS) 38 > 4 := by
    rw [sysfs_read_stored_ok w _ n d 38 hl hrd hdata, List.length_take]
    omega
  unfold read_panel_brightness
  simp only [hr, Nat.add_one_sub_one, Nat.reduceSub, ht]
  rw [if_neg hs, if_neg (by decide)]
  simp only [Option.map_some']
  rw [brightness_loop_sum _ (by rw [store_length, fit_length])]

/-- The node content "255" gives 12, whatever the array held before. -/
theorem read_panel_brightness_255 (junk : String) :
    (read_panel_brightness (brightness_world "255" junk)).map Prod.fst = some 12 := by
  rw [read_panel_brightness_digit_sum (brightness_world "255" junk) (plain_node "255")
    "255".toList rfl rfl rfl (by decide)]
  have h : store (fit 4 (brightness_world "255" junk).stack_panel_brightness)
      ("255".toList ++ [NUL]) = "255".toList ++ [NUL] := by
    unfold store
    rw [fit_length]
    have : (fit 4 (brightness_world "255" junk).stack_panel_brightness).drop 4 = [] := by
      apply List.drop_of_length_le
      rw [fit_length]
    simp [this]
  rw [h]
  decide

/-- The transition to the non-interactive state makes the io-busy write only
(skips the touch input handling) exactly when `read_panel_brightness` returns
more than 0. -/
theorem set_interactive_skip_iff (w : World) (st : State) (b : Nat × List Event)
    (hb : read_panel_brightness w = some b) :
    (samsung_power_set_interactive w st 0).map (fun r => sysfs_writes r.2) =
      some [(some st.IO_IS_BUSY_PATH, "0".toList)] ↔ b.1 > 0 := by
  have hq := (quiet_read_panel_brightness w b hb).1
  unfold samsung_power_set_interactive
  rw [if_pos rfl, hb]
  simp only [Option.map_some', Option.some.injEq]
  unfold set_interactive_rest
  by_cases h : b.1 > 0
  · simp [h, sysfs_writes_append, sysfs_writes_sysfs_write, hq]
    decide
  · simp only [h, and_false, if_false, iff_false]
    split_ifs <;>
      simp [sysfs_writes_append, sysfs_writes_sysfs_write, hq, (quiet_sysfs_read w _ _ _).1]

/-- A call has a result unless it is the transition to the non-interactive
state with a brightness read that leaves its array. -/
theorem step_defined (st : State) (c : Call × World)
    (h : ∀ on_, c.1 = Call.set_interactive on_ → on_ ≠ 0 ∨ brightness_fits c.2) :
    ∃ r, step st c = some r := by
  obtain ⟨call, w⟩ := c
  cases call with
  | set_interactive on_ =>
    obtain ⟨b, hb, _⟩ := set_interactive_defined w st on_ (h on_ rfl)
    exact ⟨_, hb⟩
  | power_hint hint data => exact ⟨_, rfl⟩

end PowerHAL
